import Mathlib

/-!
Shallow embedding of the session-multiplexed terminal message-routing layer:
the envelope codec (packages/shared/src/messages.ts), the channel naming
functions (packages/shared/src/channels.ts), the reference-counted
subscription manager (apps/api/src/valkey/client.ts), the server-side
WebSocket connection handler (apps/api/src/ws/terminal.ts), the client-side
WebSocket service (apps/web/src/services/websocket.ts) and the client-side
progress computations (apps/web/src/stores/astStore.ts and the terminal
index route).

JavaScript strings are modelled as lists of characters.  JSON.stringify and
JSON.parse are modelled as an exact pair through an explicit JSON value
tree: serializing a value yields the parse image of the produced text
directly, and a wire frame is `Option JValue` where `none` stands for text
that JSON.parse rejects.  Fields whose value is `undefined` are dropped by
JSON.stringify, which the embedding reflects by emitting no field for an
absent `Option`.  Machine numbers carried by envelopes are JSON numbers,
modelled as integers (no claim depends on fractional values).
-/

namespace Iast

/-- JavaScript strings, modelled as lists of characters. -/
abbrev Str := List Char

/-- JSON values as produced by JSON.parse and consumed by JSON.stringify. -/
inductive JValue where
  | null : JValue
  | boolean (b : Bool) : JValue
  | num (n : Int) : JValue
  | str (s : Str) : JValue
  | arr (elems : List JValue) : JValue
  | obj (fields : List (Str × JValue)) : JValue

/-- Property access on a parsed JSON object (JSON.parse output has unique
keys, so first-match lookup is exact). -/
def jLookup (key : Str) : List (Str × JValue) → Option JValue
  | [] => none
  | (k, v) :: rest => if k = key then some v else jLookup key rest

/-! Field-name constants used by the envelope codec. -/

def typeKey : Str := "type".data
def sessionIdKey : Str := "sessionId".data
def payloadKey : Str := "payload".data
def timestampKey : Str := "timestamp".data
def encodingKey : Str := "encoding".data
def seqKey : Str := "seq".data
def metaKey : Str := "meta".data
def colsKey : Str := "cols".data
def rowsKey : Str := "rows".data
def codeKey : Str := "code".data
def detailsKey : Str := "details".data
def terminalTypeKey : Str := "terminalType".data
def shellKey : Str := "shell".data
def envKey : Str := "env".data
def cwdKey : Str := "cwd".data
def hostKey : Str := "host".data
def portKey : Str := "port".data
def pidKey : Str := "pid".data
def exitCodeKey : Str := "exitCode".data
def signalKey : Str := "signal".data
def fieldsKey : Str := "fields".data
def cursorRowKey : Str := "cursorRow".data
def cursorColKey : Str := "cursorCol".data
def startKey : Str := "start".data
def endKey : Str := "end".data
def protectedKey : Str := "protected".data
def intensifiedKey : Str := "intensified".data
def rowKey : Str := "row".data
def colKey : Str := "col".data
def lengthKey : Str := "length".data

/-! Type-tag constants of the MessageType union (messages.ts). -/

def dataTag : Str := "data".data
def resizeTag : Str := "resize".data
def pingTag : Str := "ping".data
def pongTag : Str := "pong".data
def errorTag : Str := "error".data
def sessionCreateTag : Str := "session.create".data
def sessionDestroyTag : Str := "session.destroy".data
def sessionCreatedTag : Str := "session.created".data
def sessionDestroyedTag : Str := "session.destroyed".data
def tn3270ScreenTag : Str := "tn3270.screen".data
def tn3270CursorTag : Str := "tn3270.cursor".data

/-- Encoding union of messages.ts: 'utf-8' | 'base64'. -/
inductive Encoding where
  | utf8
  | base64
deriving DecidableEq

def Encoding.toStr : Encoding → Str
  | .utf8 => "utf-8".data
  | .base64 => "base64".data

/-- TerminalType union of messages.ts: 'pty' | 'tn3270'. -/
inductive TerminalType where
  | pty
  | tn3270
deriving DecidableEq

def TerminalType.toStr : TerminalType → Str
  | .pty => "pty".data
  | .tn3270 => "tn3270".data

/-- ResizeMeta of messages.ts. -/
structure ResizeMeta where
  cols : Int
  rows : Int

/-- ErrorMeta of messages.ts; details is optional. -/
structure ErrorMeta where
  code : Str
  details : Option JValue

/-- SessionCreateMeta of messages.ts; every field is optional. -/
structure SessionCreateMeta where
  terminalType : Option TerminalType
  shell : Option Str
  cols : Option Int
  rows : Option Int
  env : Option (List (Str × Str))
  cwd : Option Str
  host : Option Str
  port : Option Int

/-- SessionCreatedMeta of messages.ts. -/
structure SessionCreatedMeta where
  pid : Option Int
  shell : Str

/-- SessionDestroyedMeta of messages.ts. -/
structure SessionDestroyedMeta where
  exitCode : Option Int
  signal : Option Str

/-- TN3270Field of messages.ts. -/
structure TN3270Field where
  start : Int
  «end» : Int
  «protected» : Bool
  intensified : Bool
  row : Int
  col : Int
  length : Int

/-- TN3270ScreenMeta of messages.ts. -/
structure TN3270ScreenMeta where
  fields : List TN3270Field
  cursorRow : Int
  cursorCol : Int
  rows : Int
  cols : Int

/-- TN3270CursorMeta of messages.ts. -/
structure TN3270CursorMeta where
  row : Int
  col : Int

/-- The MessageEnvelope discriminated union of messages.ts.  Each variant
carries the common fields (sessionId, timestamp, encoding, seq, payload)
plus the tag-specific meta.  Metas typed Record in the source are
arbitrary JSON values here; optional metas are Options. -/
inductive MessageEnvelope where
  | data (sessionId : Str) (timestamp : Int) (encoding : Encoding) (seq : Int)
      (payload : Str) (meta : Option JValue)
  | resize (sessionId : Str) (timestamp : Int) (encoding : Encoding) (seq : Int)
      (payload : Str) (meta : ResizeMeta)
  | ping (sessionId : Str) (timestamp : Int) (encoding : Encoding) (seq : Int)
      (payload : Str) (meta : Option JValue)
  | pong (sessionId : Str) (timestamp : Int) (encoding : Encoding) (seq : Int)
      (payload : Str) (meta : Option JValue)
  | error (sessionId : Str) (timestamp : Int) (encoding : Encoding) (seq : Int)
      (payload : Str) (meta : ErrorMeta)
  | sessionCreate (sessionId : Str) (timestamp : Int) (encoding : Encoding) (seq : Int)
      (payload : Str) (meta : Option SessionCreateMeta)
  | sessionDestroy (sessionId : Str) (timestamp : Int) (encoding : Encoding) (seq : Int)
      (payload : Str) (meta : Option JValue)
  | sessionCreated (sessionId : Str) (timestamp : Int) (encoding : Encoding) (seq : Int)
      (payload : Str) (meta : SessionCreatedMeta)
  | sessionDestroyed (sessionId : Str) (timestamp : Int) (encoding : Encoding) (seq : Int)
      (payload : Str) (meta : Option SessionDestroyedMeta)
  | tn3270Screen (sessionId : Str) (timestamp : Int) (encoding : Encoding) (seq : Int)
      (payload : Str) (meta : TN3270ScreenMeta)
  | tn3270Cursor (sessionId : Str) (timestamp : Int) (encoding : Encoding) (seq : Int)
      (payload : Str) (meta : TN3270CursorMeta)

/-- One optional JSON object field: JSON.stringify drops a field whose
value is undefined, so an absent Option contributes no field. -/
def optField (key : Str) : Option JValue → List (Str × JValue)
  | none => []
  | some v => [(key, v)]

/-- The common-field prefix of a serialized envelope, in the property
order of the factory object literals of messages.ts. -/
def baseFields (ty : Str) (sessionId : Str) (payload : Str) (timestamp : Int)
    (encoding : Encoding) (seq : Int) : List (Str × JValue) :=
  [(typeKey, .str ty), (sessionIdKey, .str sessionId), (payloadKey, .str payload),
   (timestampKey, .num timestamp), (encodingKey, .str encoding.toStr),
   (seqKey, .num seq)]

def resizeMetaToJson (m : ResizeMeta) : JValue :=
  .obj [(colsKey, .num m.cols), (rowsKey, .num m.rows)]

def errorMetaToJson (m : ErrorMeta) : JValue :=
  .obj ((codeKey, .str m.code) :: optField detailsKey m.details)

def envRecordToJson (e : List (Str × Str)) : JValue :=
  .obj (e.map (fun p => (p.1, .str p.2)))

def sessionCreateMetaToJson (m : SessionCreateMeta) : JValue :=
  .obj (optField terminalTypeKey (m.terminalType.map (fun t => .str t.toStr)) ++
        optField shellKey (m.shell.map .str) ++
        optField colsKey (m.cols.map .num) ++
        optField rowsKey (m.rows.map .num) ++
        optField envKey (m.env.map envRecordToJson) ++
        optField cwdKey (m.cwd.map .str) ++
        optField hostKey (m.host.map .str) ++
        optField portKey (m.port.map .num))

def sessionCreatedMetaToJson (m : SessionCreatedMeta) : JValue :=
  .obj ((shellKey, .str m.shell) :: optField pidKey (m.pid.map .num))

def sessionDestroyedMetaToJson (m : SessionDestroyedMeta) : JValue :=
  .obj (optField exitCodeKey (m.exitCode.map .num) ++
        optField signalKey (m.signal.map .str))

def tn3270FieldToJson (f : TN3270Field) : JValue :=
  .obj [(startKey, .num f.start), (endKey, .num f.«end»),
        (protectedKey, .boolean f.«protected»),
        (intensifiedKey, .boolean f.intensified),
        (rowKey, .num f.row), (colKey, .num f.col), (lengthKey, .num f.length)]

def tn3270ScreenMetaToJson (m : TN3270ScreenMeta) : JValue :=
  .obj [(fieldsKey, .arr (m.fields.map tn3270FieldToJson)),
        (cursorRowKey, .num m.cursorRow), (cursorColKey, .num m.cursorCol),
        (rowsKey, .num m.rows), (colsKey, .num m.cols)]

def tn3270CursorMetaToJson (m : TN3270CursorMeta) : JValue :=
  .obj [(rowKey, .num m.row), (colKey, .num m.col)]

/-- JSON image of an envelope under JSON.stringify (messages.ts
serializeMessage), with optional metas dropped when absent. -/
def envelopeToJson : MessageEnvelope → JValue
  | .data sid ts enc sq p m =>
      .obj (baseFields dataTag sid p ts enc sq ++ optField metaKey m)
  | .resize sid ts enc sq p m =>
      .obj (baseFields resizeTag sid p ts enc sq ++ [(metaKey, resizeMetaToJson m)])
  | .ping sid ts enc sq p m =>
      .obj (baseFields pingTag sid p ts enc sq ++ optField metaKey m)
  | .pong sid ts enc sq p m =>
      .obj (baseFields pongTag sid p ts enc sq ++ optField metaKey m)
  | .error sid ts enc sq p m =>
      .obj (baseFields errorTag sid p ts enc sq ++ [(metaKey, errorMetaToJson m)])
  | .sessionCreate sid ts enc sq p m =>
      .obj (baseFields sessionCreateTag sid p ts enc sq ++
            optField metaKey (m.map sessionCreateMetaToJson))
  | .sessionDestroy sid ts enc sq p m =>
      .obj (baseFields sessionDestroyTag sid p ts enc sq ++ optField metaKey m)
  | .sessionCreated sid ts enc sq p m =>
      .obj (baseFields sessionCreatedTag sid p ts enc sq ++
            [(metaKey, sessionCreatedMetaToJson m)])
  | .sessionDestroyed sid ts enc sq p m =>
      .obj (baseFields sessionDestroyedTag sid p ts enc sq ++
            optField metaKey (m.map sessionDestroyedMetaToJson))
  | .tn3270Screen sid ts enc sq p m =>
      .obj (baseFields tn3270ScreenTag sid p ts enc sq ++
            [(metaKey, tn3270ScreenMetaToJson m)])
  | .tn3270Cursor sid ts enc sq p m =>
      .obj (baseFields tn3270CursorTag sid p ts enc sq ++
            [(metaKey, tn3270CursorMetaToJson m)])

/-- A wire frame: the JSON.parse image of a transmitted string; `none`
models text that JSON.parse rejects. -/
abbrev WireFrame := Option JValue

/-- serializeMessage of messages.ts: JSON.stringify, whose output always
parses back to the same JSON tree. -/
def serializeMessage (msg : MessageEnvelope) : WireFrame :=
  some (envelopeToJson msg)

/-- isValidMessageEnvelope of messages.ts: the value must be a non-null
object and the five common fields must have the right typeof.  A parsed
array has object typeof in JS but no such properties, so rejecting
non-object trees here is behaviour-equal. -/
def isValidMessageEnvelope (j : JValue) : Bool :=
  match j with
  | .obj fields =>
    (match jLookup typeKey fields with | some (.str _) => true | _ => false) &&
    (match jLookup sessionIdKey fields with | some (.str _) => true | _ => false) &&
    (match jLookup timestampKey fields with | some (.num _) => true | _ => false) &&
    (match jLookup encodingKey fields with | some (.str _) => true | _ => false) &&
    (match jLookup seqKey fields with | some (.num _) => true | _ => false)
  | _ => false

def jsonParseErrorText : Str := "Unexpected token".data
def invalidEnvelopeText : Str := "Invalid message envelope".data

/-- deserializeMessage of messages.ts: JSON.parse (which may throw) then
the common-field validation; a thrown error is an `Except.error`. -/
def deserializeMessage (dataArg : WireFrame) : Except Str JValue :=
  match dataArg with
  | none => .error jsonParseErrorText
  | some parsed =>
      if isValidMessageEnvelope parsed then .ok parsed
      else .error invalidEnvelopeText

/-!
Channel naming (packages/shared/src/channels.ts).  Channel names are
strings; split and join on the dot character model String.prototype.split
and Array.prototype.join with separator dot.
-/

def dotChar : Char := '.'

/-- JS channel.split(dot): every occurrence of the separator splits, and
the empty string yields one empty part. -/
def splitOnDot : Str → List Str
  | [] => [[]]
  | c :: rest =>
    let parts := splitOnDot rest
    if c = dotChar then [] :: parts
    else
      match parts with
      | [] => [[c]]
      | h :: t => (c :: h) :: t

/-- JS parts.join(dot). -/
def joinDot : List Str → Str
  | [] => []
  | [s] => s
  | s :: s2 :: rest => s ++ dotChar :: joinDot (s2 :: rest)

/-! The eight members of the CHANNEL_PREFIX constant of channels.ts. -/

def PTY_INPUT : Str := "pty.input".data
def PTY_OUTPUT : Str := "pty.output".data
def PTY_CONTROL : Str := "pty.control".data
def TN3270_INPUT : Str := "tn3270.input".data
def TN3270_OUTPUT : Str := "tn3270.output".data
def TN3270_CONTROL : Str := "tn3270.control".data
def SESSIONS : Str := "sessions.events".data
def GATEWAY_CONTROL : Str := "gateway.control".data

/-- All defined channel prefixes. -/
def channelPrefixList : List Str :=
  [PTY_INPUT, PTY_OUTPUT, PTY_CONTROL, TN3270_INPUT, TN3270_OUTPUT,
   TN3270_CONTROL, SESSIONS, GATEWAY_CONTROL]

/-- The per-session channel-name template of channels.ts, prefix dot
sessionId. -/
def mkSessionChannel (pfx : Str) (sessionId : Str) : Str :=
  pfx ++ dotChar :: sessionId

def getPtyInputChannel (sessionId : Str) : Str := mkSessionChannel PTY_INPUT sessionId
def getPtyOutputChannel (sessionId : Str) : Str := mkSessionChannel PTY_OUTPUT sessionId
def getPtyControlChannel (sessionId : Str) : Str := mkSessionChannel PTY_CONTROL sessionId
def getTn3270InputChannel (sessionId : Str) : Str := mkSessionChannel TN3270_INPUT sessionId
def getTn3270OutputChannel (sessionId : Str) : Str := mkSessionChannel TN3270_OUTPUT sessionId
def getTn3270ControlChannel : Str := TN3270_CONTROL
def getGatewayControlChannel : Str := GATEWAY_CONTROL
def getSessionsChannel : Str := SESSIONS

/-- parseChannel of channels.ts: split on dots; with three or more parts
the prefix is the first two parts rejoined and the sessionId is the rest
rejoined; otherwise the whole name is a bare prefix. -/
def parseChannel (channel : Str) : Str × Option Str :=
  let parts := splitOnDot channel
  if 3 ≤ parts.length then
    (joinDot (parts.take 2), some (joinDot (parts.drop 2)))
  else
    (channel, none)

/-!
Subscription manager (apps/api/src/valkey/client.ts).  The per-process
state is the sessionSubscribers map from sessionId to the set of local
output handlers; handlers are identified by numbers; JS Sets are
modelled as duplicate-free lists in insertion order.  Broker and socket
side effects are recorded as an explicit effect trace.
-/

/-- Handlers are opaque; identify them by number. -/
abbrev Handler := Nat

/-- Side effects of the routing tier: broker publishes, upstream broker
subscribe and unsubscribe, socket sends and socket close. -/
inductive SrvEffect where
  | pub (channel : Str) (message : JValue)
  | sub (channel : Str)
  | unsub (channel : Str)
  | sockSend (message : JValue)
  | sockClose

def SrvEffect.isPub : SrvEffect → Bool
  | .pub _ _ => true
  | _ => false

def SrvEffect.isClose : SrvEffect → Bool
  | .sockClose => true
  | _ => false

/-- The sessionSubscribers map, keyed by sessionId. -/
abbrev SubMap := List (Str × List Handler)

def mapLookup (sid : Str) : SubMap → Option (List Handler)
  | [] => none
  | (k, v) :: rest => if k = sid then some v else mapLookup sid rest

/-- Map.set: overwrite the first entry with this key, or append a new
entry. -/
def mapSet (sid : Str) (hs : List Handler) : SubMap → SubMap
  | [] => [(sid, hs)]
  | (k, v) :: rest =>
      if k = sid then (k, hs) :: rest else (k, v) :: mapSet sid hs rest

/-- Map.delete: drop the first entry with this key. -/
def mapDelete (sid : Str) : SubMap → SubMap
  | [] => []
  | (k, v) :: rest => if k = sid then rest else (k, v) :: mapDelete sid rest

/-- Set.add of a JS Set: appends unless already present. -/
def setAdd (h : Handler) (hs : List Handler) : List Handler :=
  if h ∈ hs then hs else hs ++ [h]

/-- Set.delete of a JS Set. -/
def setDelete (h : Handler) (hs : List Handler) : List Handler :=
  hs.erase h

/-- subscribeToOutput of ValkeyClient: create the handler set and issue
the single upstream subscribe on first attach for a session, then add
the handler. -/
def subscribeToOutput (sid : Str) (handler : Handler) (st : SubMap) :
    SubMap × List SrvEffect :=
  match mapLookup sid st with
  | none =>
      (mapSet sid (setAdd handler []) st, [.sub (getTn3270OutputChannel sid)])
  | some hs =>
      (mapSet sid (setAdd handler hs) st, [])

/-- unsubscribeFromOutput of ValkeyClient: remove the given handler if
one is passed; when no handlers remain, or when no handler was passed at
all, drop the whole entry and issue the upstream unsubscribe. -/
def unsubscribeFromOutput (sid : Str) (handler : Option Handler) (st : SubMap) :
    SubMap × List SrvEffect :=
  match mapLookup sid st with
  | none => (st, [])
  | some hs =>
      let hs2 := match handler with
        | some h => setDelete h hs
        | none => hs
      if hs2.length = 0 ∨ handler = none then
        (mapDelete sid st, [.unsub (getTn3270OutputChannel sid)])
      else
        (mapSet sid hs2 st, [])

/-- Attach a list of handlers for one session in order, collecting the
upstream effects. -/
def attachAll (sid : Str) : List Handler → SubMap → SubMap × List SrvEffect
  | [], st => (st, [])
  | h :: rest, st =>
      let r1 := subscribeToOutput sid h st
      let r2 := attachAll sid rest r1.1
      (r2.1, r1.2 ++ r2.2)

/-- Detach a list of handlers for one session in order, collecting the
upstream effects. -/
def detachAll (sid : Str) : List Handler → SubMap → SubMap × List SrvEffect
  | [], st => (st, [])
  | h :: rest, st =>
      let r1 := unsubscribeFromOutput sid (some h) st
      let r2 := detachAll sid rest r1.1
      (r2.1, r1.2 ++ r2.2)

/-!
Factory functions of messages.ts.  The module-level sequenceCounter is
threaded explicitly: getNextSeq increments it and yields the new value.
Date.now() is an explicit `now` argument.
-/

def getNextSeq (counter : Nat) : Nat × Nat :=
  (counter + 1, counter + 1)

def createDataMessage (now : Int) (sessionId : Str) (payload : Str)
    (meta : Option JValue) (counter : Nat) : MessageEnvelope × Nat :=
  let r := getNextSeq counter
  (.data sessionId now .utf8 (r.1 : Int) payload meta, r.2)

def createResizeMessage (now : Int) (sessionId : Str) (cols rows : Int)
    (counter : Nat) : MessageEnvelope × Nat :=
  let r := getNextSeq counter
  (.resize sessionId now .utf8 (r.1 : Int) [] ⟨cols, rows⟩, r.2)

def createPingMessage (now : Int) (sessionId : Str) (counter : Nat) :
    MessageEnvelope × Nat :=
  let r := getNextSeq counter
  (.ping sessionId now .utf8 (r.1 : Int) [] none, r.2)

def createPongMessage (now : Int) (sessionId : Str) (counter : Nat) :
    MessageEnvelope × Nat :=
  let r := getNextSeq counter
  (.pong sessionId now .utf8 (r.1 : Int) [] none, r.2)

def createErrorMessage (now : Int) (sessionId : Str) (code : Str)
    (message : Str) (details : Option JValue) (counter : Nat) :
    MessageEnvelope × Nat :=
  let r := getNextSeq counter
  (.error sessionId now .utf8 (r.1 : Int) message ⟨code, details⟩, r.2)

def createSessionCreateMessage (now : Int) (sessionId : Str)
    (options : Option SessionCreateMeta) (counter : Nat) :
    MessageEnvelope × Nat :=
  let r := getNextSeq counter
  (.sessionCreate sessionId now .utf8 (r.1 : Int) [] options, r.2)

def createSessionDestroyMessage (now : Int) (sessionId : Str) (counter : Nat) :
    MessageEnvelope × Nat :=
  let r := getNextSeq counter
  (.sessionDestroy sessionId now .utf8 (r.1 : Int) [] none, r.2)

/-- The seq common field of an envelope. -/
def seqOf : MessageEnvelope → Int
  | .data _ _ _ sq _ _ => sq
  | .resize _ _ _ sq _ _ => sq
  | .ping _ _ _ sq _ _ => sq
  | .pong _ _ _ sq _ _ => sq
  | .error _ _ _ sq _ _ => sq
  | .sessionCreate _ _ _ sq _ _ => sq
  | .sessionDestroy _ _ _ sq _ _ => sq
  | .sessionCreated _ _ _ sq _ _ => sq
  | .sessionDestroyed _ _ _ sq _ _ => sq
  | .tn3270Screen _ _ _ sq _ _ => sq
  | .tn3270Cursor _ _ _ sq _ _ => sq

/-!
Server-side WebSocket connection handler (apps/api/src/ws/terminal.ts,
TN3270 handler).  Per inbound frame the handler decodes, then dispatches
on the type guards; a failed decode produces one error envelope with the
invalid-message code and never closes.  The type guards of messages.ts
test the type property of the decoded object.
-/

/-- Does the decoded JSON object carry the given type tag (the type-guard
test of messages.ts applied to the decoded value). -/
def jTypeIs (tag : Str) (j : JValue) : Bool :=
  match j with
  | .obj fields =>
      match jLookup typeKey fields with
      | some (.str t) => t = tag
      | _ => false
  | _ => false

/-- ERROR_CODES.WS_MESSAGE_INVALID of the shared error-code table. -/
def WS_MESSAGE_INVALID : Str := "E4002".data

def invalidFormatText : Str := "Invalid message format".data

/-- Type tag of ast.run messages.  Modelled from the spec: the AST
message family (ast.run, ast.control and the event tags) is declared in
the shared package but its source is not under src; the architecture
document lists the tag strings. -/
def astRunTag : Str := "ast.run".data

/-- Type tag of ast.control messages.  Modelled from the spec: see
astRunTag. -/
def astControlTag : Str := "ast.control".data

/-- The message listener of terminalWebSocket: decode, then route data,
ast.run, ast.control and session.destroy to the session input channel,
answer ping with a pong on the socket, route session.create to the
TN3270 gateway control channel; on a decode failure reply with one
invalid-message error envelope and keep the connection open.
touchSession updates only the in-process session registry (outside the
broker) and is not part of the effect trace. -/
def handleSocketMessage (sid : Str) (now : Int) (frame : WireFrame)
    (counter : Nat) : Nat × List SrvEffect :=
  match deserializeMessage frame with
  | .error _ =>
      let r := createErrorMessage now sid WS_MESSAGE_INVALID invalidFormatText none counter
      (r.2, [.sockSend (envelopeToJson r.1)])
  | .ok message =>
      if jTypeIs dataTag message then
        (counter, [.pub (getTn3270InputChannel sid) message])
      else if jTypeIs astRunTag message then
        (counter, [.pub (getTn3270InputChannel sid) message])
      else if jTypeIs astControlTag message then
        (counter, [.pub (getTn3270InputChannel sid) message])
      else if jTypeIs pingTag message then
        let r := createPongMessage now sid counter
        (r.2, [.sockSend (envelopeToJson r.1)])
      else if jTypeIs sessionCreateTag message then
        (counter, [.pub getTn3270ControlChannel message])
      else if jTypeIs sessionDestroyTag message then
        (counter, [.pub (getTn3270InputChannel sid) message])
      else
        (counter, [])

/-- The connection loop: frames are handled in arrival order; if a frame
produced a socket close no later frame is processed. -/
def processFrames (sid : Str) (now : Int) :
    List WireFrame → Nat → Nat × List SrvEffect
  | [], counter => (counter, [])
  | f :: rest, counter =>
      let r1 := handleSocketMessage sid now f counter
      if r1.2.any SrvEffect.isClose then
        (r1.1, r1.2)
      else
        let r2 := processFrames sid now rest r1.1
        (r2.1, r1.2 ++ r2.2)

/-- The close listener of terminalWebSocket: detach this connection's
output handler via the subscription manager.  endTerminalSession updates
only the in-process session registry (its source is outside src) and
publishes nothing. -/
def handleSocketClose (sid : Str) (handler : Handler) (st : SubMap) :
    SubMap × List SrvEffect :=
  unsubscribeFromOutput sid (some handler) st

/-!
Client-side WebSocket service (apps/web/src/services/websocket.ts).
The module-level initializedSessions set and the module-level
sequenceCounter of messages.ts are shared by all connections; each
TerminalWebSocket instance additionally has its own seq counter that
overwrites the factory seq on data, resize and AST sends.
-/

/-- The session.create options sent from onopen: terminalType tn3270,
cols 80, rows 43. -/
def defaultCreateMeta : SessionCreateMeta :=
  ⟨some .tn3270, none, some 80, some 43, none, none, none, none⟩

/-- Session-bootstrap events of the client service, as they affect the
module-level initializedSessions set: a socket open for a session, a
socket close or a disconnect that keeps the session, and a disconnect
with destroySession true on an open socket. -/
inductive ClientEvent where
  | sockOpen (sid : Str)
  | sockClosed (sid : Str)
  | disconnectDestroy (sid : Str)
deriving DecidableEq

/-- One bootstrap step.  onopen sends session.create only when the
session is not yet in initializedSessions and records it there;
a plain close or destroy-less disconnect leaves the set alone;
disconnect with destroySession true sends session.destroy and removes
the session from the set. -/
def bootStep (now : Int) :
    ClientEvent → List Str × Nat → (List Str × Nat) × List MessageEnvelope
  | .sockOpen sid, (inited, g) =>
      if sid ∈ inited then ((inited, g), [])
      else
        let r := createSessionCreateMessage now sid (some defaultCreateMeta) g
        ((sid :: inited, r.2), [r.1])
  | .sockClosed _, s => (s, [])
  | .disconnectDestroy sid, (inited, g) =>
      let r := createSessionDestroyMessage now sid g
      ((inited.erase sid, r.2), [r.1])

def bootRun (now : Int) :
    List ClientEvent → List Str × Nat → (List Str × Nat) × List MessageEnvelope
  | [], s => (s, [])
  | e :: rest, s =>
      let r1 := bootStep now e s
      let r2 := bootRun now rest r1.1
      (r2.1, r1.2 ++ r2.2)

/-- Is an envelope a session.create for the given session. -/
def isSessionCreateFor (sid : Str) : MessageEnvelope → Bool
  | .sessionCreate s _ _ _ _ _ => s = sid
  | _ => false

/-- disconnect of TerminalWebSocket: with destroySession true and the
socket open it sends one session.destroy and clears the session from
initializedSessions; otherwise it sends nothing and leaves the set
alone.  Result: new initializedSessions, new module counter, envelopes
sent. -/
def disconnectClient (sid : Str) (destroySession : Bool) (wsOpen : Bool)
    (now : Int) (inited : List Str) (g : Nat) :
    List Str × Nat × List MessageEnvelope :=
  if destroySession && wsOpen then
    let r := createSessionDestroyMessage now sid g
    (inited.erase sid, r.2, [r.1])
  else
    (inited, g, [])

/-!
Per-connection seq model for one TerminalWebSocket instance.  sendData,
sendResize, sendASTRun and sendASTControl build an envelope through a
factory (which bumps the module-level counter) and then overwrite its
seq with the instance counter; the heartbeat ping and the onopen
session.create keep the factory seq from the module-level counter.
-/

inductive SentKind where
  | create
  | ping
  | data
  | resize
  | astRun
  | astControl
deriving DecidableEq

/-- Kinds whose seq comes from the per-connection counter. -/
def SentKind.isPerConnection : SentKind → Bool
  | .data => true
  | .resize => true
  | .astRun => true
  | .astControl => true
  | _ => false

/-- State of one client connection: whether its session is already in
initializedSessions, the module-level sequenceCounter and the
per-instance seq counter. -/
structure SeqState where
  inited : Bool
  globalSeq : Nat
  connSeq : Nat
deriving DecidableEq

inductive SeqEvent where
  | openCreate
  | heartbeatPing
  | sendData (payload : Str)
  | sendResize (cols rows : Int)
  | sendASTRun
  | sendASTControl

/-- createASTRunMessage and createASTControlMessage are not under src.
Modelled from the spec: like every factory of messages.ts they take
their seq from getNextSeq on the module counter; the send path then
overwrites that seq, so only the counter bump is observable here. -/
def astFactoryCounter (g : Nat) : Nat :=
  (getNextSeq g).2

/-- One send on the connection, yielding the new state and the list of
envelopes sent as kind and seq pairs. -/
def seqStep (sid : Str) (now : Int) :
    SeqEvent → SeqState → SeqState × List (SentKind × Int)
  | .openCreate, s =>
      if s.inited then (s, [])
      else
        let r := createSessionCreateMessage now sid (some defaultCreateMeta) s.globalSeq
        (⟨true, r.2, s.connSeq⟩, [(.create, seqOf r.1)])
  | .heartbeatPing, s =>
      let r := createPingMessage now sid s.globalSeq
      (⟨s.inited, r.2, s.connSeq⟩, [(.ping, seqOf r.1)])
  | .sendData payload, s =>
      let r := createDataMessage now sid payload none s.globalSeq
      (⟨s.inited, r.2, s.connSeq + 1⟩, [(.data, ((s.connSeq + 1 : Nat) : Int))])
  | .sendResize cols rows, s =>
      let r := createResizeMessage now sid cols rows s.globalSeq
      (⟨s.inited, r.2, s.connSeq + 1⟩, [(.resize, ((s.connSeq + 1 : Nat) : Int))])
  | .sendASTRun, s =>
      (⟨s.inited, astFactoryCounter s.globalSeq, s.connSeq + 1⟩,
       [(.astRun, ((s.connSeq + 1 : Nat) : Int))])
  | .sendASTControl, s =>
      (⟨s.inited, astFactoryCounter s.globalSeq, s.connSeq + 1⟩,
       [(.astControl, ((s.connSeq + 1 : Nat) : Int))])

def seqRun (sid : Str) (now : Int) :
    List SeqEvent → SeqState → SeqState × List (SentKind × Int)
  | [], s => (s, [])
  | e :: rest, s =>
      let r1 := seqStep sid now e s
      let r2 := seqRun sid now rest r1.1
      (r2.1, r1.2 ++ r2.2)

/-!
Client-side progress computations.  Math.round of JavaScript rounds half
towards positive infinity; the operands here are exact small-integer
ratios, on which double arithmetic is exact enough that the rational
model is faithful.
-/

/-- JS Math.round. -/
def jsRound (q : ℚ) : ℤ :=
  ⌊q + 1 / 2⌋

/-- Execution status values an active execution can have. -/
inductive ActiveStatus where
  | running
  | paused
deriving DecidableEq

/-- The persisted execution record as stored by the API
(apps/api/src/services/dynamodb.ts): counts for success, failed and
skipped items are all part of the record. -/
structure ExecutionRecord where
  ast_name : Str
  status : ActiveStatus
  policy_count : Nat
  success_count : Option Nat
  failed_count : Option Nat
  skipped_count : Option Nat
  execution_id : Str

/-- The progress triple of the client store. -/
structure ASTProgress where
  current : Nat
  total : Nat
  percentage : ℤ

/-- The progress seeded by restoreFromExecution of astStore.ts: processed
is the sum of the success and failed counts (the skipped count of the
record is not read), and the percentage is Math.round of
processed over policy_count times 100 when policy_count is positive,
else no progress. -/
def restoreProgress (e : ExecutionRecord) : Option ASTProgress :=
  let processed := e.success_count.getD 0 + e.failed_count.getD 0
  if 0 < e.policy_count then
    some ⟨processed, e.policy_count,
          jsRound ((processed : ℚ) / (e.policy_count : ℚ) * 100)⟩
  else
    none

/-- The percentage attached to a live progress event by
handleASTProgressUpdate of the terminal index route: Math.round of
current over total times 100 when total is positive, else 0. -/
def liveProgressPercentage (current total : Nat) : ℤ :=
  if 0 < total then jsRound ((current : ℚ) / (total : ℚ) * 100) else 0

/-! Splitting and joining channel names. -/

theorem splitOnDot_ne_nil (s : Str) : splitOnDot s ≠ [] := by
  cases s with
  | nil => simp [splitOnDot]
  | cons c rest =>
    simp only [splitOnDot]
    by_cases h : c = dotChar
    · simp [h]
    · simp only [h, if_false]
      cases splitOnDot rest <;> simp

theorem splitOnDot_append (s t : Str) :
    splitOnDot (s ++ dotChar :: t) = splitOnDot s ++ splitOnDot t := by
  induction s with
  | nil => simp [splitOnDot]
  | cons c rest ih =>
    simp only [List.cons_append, splitOnDot, List.append_eq]
    rw [ih]
    by_cases h : c = dotChar
    · simp [h]
    · simp only [h, if_false]
      rcases hr : splitOnDot rest with _ | ⟨hd, tl⟩
      · exact absurd hr (splitOnDot_ne_nil rest)
      · rfl

theorem splitOnDot_no_dot (s : Str) (h : dotChar ∉ s) : splitOnDot s = [s] := by
  induction s with
  | nil => simp [splitOnDot]
  | cons c rest ih =>
    simp only [List.mem_cons, not_or] at h
    have hc : ¬ c = dotChar := fun hcd => h.1 (by rw [hcd])
    simp only [splitOnDot, hc, if_false, ih h.2]

theorem joinDot_splitOnDot (s : Str) : joinDot (splitOnDot s) = s := by
  induction s with
  | nil => simp [splitOnDot, joinDot]
  | cons c rest ih =>
    simp only [splitOnDot]
    by_cases h : c = dotChar
    · simp only [h, if_true]
      rcases hr : splitOnDot rest with _ | ⟨hd, tl⟩
      · exact absurd hr (splitOnDot_ne_nil rest)
      · rw [hr] at ih
        simp [joinDot, ih]
    · simp only [h, if_false]
      rcases hr : splitOnDot rest with _ | ⟨hd, tl⟩
      · exact absurd hr (splitOnDot_ne_nil rest)
      · rw [hr] at ih
        cases tl with
        | nil => simpa [joinDot] using congrArg (c :: ·) ih
        | cons x xs => simpa [joinDot] using congrArg (c :: ·) ih

/-- Build and parse for one two-component prefix: parsing the built
per-session name recovers the prefix and the sessionId, and parsing the
bare prefix yields no sessionId. -/
theorem parseChannel_two_component (a b : Str) (ha : dotChar ∉ a) (hb : dotChar ∉ b) :
    (∀ sid, parseChannel (mkSessionChannel (a ++ dotChar :: b) sid) =
        (a ++ dotChar :: b, some sid)) ∧
    parseChannel (a ++ dotChar :: b) = (a ++ dotChar :: b, none) := by
  constructor
  · intro sid
    have hsplit : splitOnDot (mkSessionChannel (a ++ dotChar :: b) sid) =
        a :: b :: splitOnDot sid := by
      have : mkSessionChannel (a ++ dotChar :: b) sid =
          a ++ dotChar :: (b ++ dotChar :: sid) := by
        simp [mkSessionChannel]
      rw [this, splitOnDot_append, splitOnDot_append,
        splitOnDot_no_dot a ha, splitOnDot_no_dot b hb]
      simp
    have hlen : 3 ≤ (splitOnDot (mkSessionChannel (a ++ dotChar :: b) sid)).length := by
      rw [hsplit]
      rcases hr : splitOnDot sid with _ | ⟨hd, tl⟩
      · exact absurd hr (splitOnDot_ne_nil sid)
      · simp
    simp only [parseChannel, hsplit] at hlen ⊢
    rw [if_pos hlen]
    rcases hr : splitOnDot sid with _ | ⟨hd, tl⟩
    · exact absurd hr (splitOnDot_ne_nil sid)
    · have hjoin : joinDot (splitOnDot sid) = sid := joinDot_splitOnDot sid
      rw [hr] at hjoin
      simp [List.take, List.drop, joinDot, hjoin]
  · have hsplit : splitOnDot (a ++ dotChar :: b) = [a, b] := by
      rw [splitOnDot_append, splitOnDot_no_dot a ha, splitOnDot_no_dot b hb]
      rfl
    simp [parseChannel, hsplit]

/-- C8: for every defined channel prefix, parsing the constructed
per-session channel name recovers exactly the prefix and the sessionId,
and parsing the bare prefix yields the prefix with no sessionId. -/
theorem channel_build_parse_inverse :
    ∀ p ∈ channelPrefixList,
      (∀ sid, parseChannel (mkSessionChannel p sid) = (p, some sid)) ∧
      parseChannel p = (p, none) := by
  intro p hp
  simp only [channelPrefixList, List.mem_cons, List.not_mem_nil, or_false] at hp
  rcases hp with rfl | rfl | rfl | rfl | rfl | rfl | rfl | rfl
  · exact (show PTY_INPUT = "pty".data ++ dotChar :: "input".data by decide) ▸
      parseChannel_two_component _ _ (by decide) (by decide)
  · exact (show PTY_OUTPUT = "pty".data ++ dotChar :: "output".data by decide) ▸
      parseChannel_two_component _ _ (by decide) (by decide)
  · exact (show PTY_CONTROL = "pty".data ++ dotChar :: "control".data by decide) ▸
      parseChannel_two_component _ _ (by decide) (by decide)
  · exact (show TN3270_INPUT = "tn3270".data ++ dotChar :: "input".data by decide) ▸
      parseChannel_two_component _ _ (by decide) (by decide)
  · exact (show TN3270_OUTPUT = "tn3270".data ++ dotChar :: "output".data by decide) ▸
      parseChannel_two_component _ _ (by decide) (by decide)
  · exact (show TN3270_CONTROL = "tn3270".data ++ dotChar :: "control".data by decide) ▸
      parseChannel_two_component _ _ (by decide) (by decide)
  · exact (show SESSIONS = "sessions".data ++ dotChar :: "events".data by decide) ▸
      parseChannel_two_component _ _ (by decide) (by decide)
  · exact (show GATEWAY_CONTROL = "gateway".data ++ dotChar :: "control".data by decide) ▸
      parseChannel_two_component _ _ (by decide) (by decide)

/-- Witness for C8 at the TN3270 output prefix and a concrete sessionId. -/
theorem channel_build_parse_inverse_witness :
    parseChannel (mkSessionChannel TN3270_OUTPUT ("abc-1".data)) =
      (TN3270_OUTPUT, some ("abc-1".data)) ∧
    parseChannel TN3270_OUTPUT = (TN3270_OUTPUT, none) := by
  have h := channel_build_parse_inverse TN3270_OUTPUT
    (by simp [channelPrefixList])
  exact ⟨h.1 _, h.2⟩

/-! Bookkeeping lemmas for the sessionSubscribers map. -/

theorem mapLookup_mapSet_self (sid : Str) (hs : List Handler) (st : SubMap) :
    mapLookup sid (mapSet sid hs st) = some hs := by
  induction st with
  | nil => simp [mapSet, mapLookup]
  | cons e rest ih =>
    obtain ⟨k, v⟩ := e
    by_cases h : k = sid
    · simp [mapSet, mapLookup, h]
    · simp [mapSet, mapLookup, h, ih]

theorem mapSet_mapSet (sid : Str) (hs1 hs2 : List Handler) (st : SubMap) :
    mapSet sid hs2 (mapSet sid hs1 st) = mapSet sid hs2 st := by
  induction st with
  | nil => simp [mapSet]
  | cons e rest ih =>
    obtain ⟨k, v⟩ := e
    by_cases h : k = sid
    · simp [mapSet, h]
    · simp [mapSet, h, ih]

theorem mapDelete_mapSet (sid : Str) (hs : List Handler) (st : SubMap) :
    mapDelete sid (mapSet sid hs st) = mapDelete sid st := by
  induction st with
  | nil => simp [mapSet, mapDelete]
  | cons e rest ih =>
    obtain ⟨k, v⟩ := e
    by_cases h : k = sid
    · simp [mapSet, mapDelete, h]
    · simp [mapSet, mapDelete, h, ih]

theorem mapDelete_of_lookup_none (sid : Str) (st : SubMap)
    (h : mapLookup sid st = none) : mapDelete sid st = st := by
  induction st with
  | nil => simp [mapDelete]
  | cons e rest ih =>
    obtain ⟨k, v⟩ := e
    by_cases hk : k = sid
    · simp [mapLookup, hk] at h
    · simp [mapLookup, hk] at h
      simp [mapDelete, hk, ih h]

theorem mapSet_of_lookup_eq (sid : Str) (v : List Handler) (st : SubMap)
    (h : mapLookup sid st = some v) : mapSet sid v st = st := by
  induction st with
  | nil => simp [mapLookup] at h
  | cons e rest ih =>
    obtain ⟨k, w⟩ := e
    by_cases hk : k = sid
    · simp [mapLookup, hk] at h
      simp [mapSet, hk, h]
    · simp [mapLookup, hk] at h
      simp [mapSet, hk, ih h]

theorem foldl_setAdd_of_nodup (l : List Handler) :
    ∀ acc, l.Nodup → (∀ x ∈ l, x ∉ acc) →
      l.foldl (fun a x => setAdd x a) acc = acc ++ l := by
  induction l with
  | nil => intro acc _ _; simp
  | cons h rest ih =>
    intro acc hnd hdisj
    have hnotin : h ∉ acc := hdisj h (by simp)
    have hstep : setAdd h acc = acc ++ [h] := by simp [setAdd, hnotin]
    have hrest : ∀ x ∈ rest, x ∉ acc ++ [h] := by
      intro x hx
      simp only [List.mem_append, List.mem_singleton, not_or]
      refine ⟨hdisj x (by simp [hx]), ?_⟩
      intro hxh
      exact (List.nodup_cons.mp hnd).1 (hxh ▸ hx)
    calc (h :: rest).foldl (fun a x => setAdd x a) acc
        = rest.foldl (fun a x => setAdd x a) (acc ++ [h]) := by
          simp [List.foldl_cons, hstep]
      _ = (acc ++ [h]) ++ rest := ih (acc ++ [h]) (List.nodup_cons.mp hnd).2 hrest
      _ = acc ++ h :: rest := by simp

theorem attachAll_of_lookup_some (sid : Str) (l : List Handler) :
    ∀ hs st, mapLookup sid st = some hs →
      attachAll sid l st =
        (mapSet sid (l.foldl (fun a x => setAdd x a) hs) st, []) := by
  induction l with
  | nil =>
    intro hs st h
    simp [attachAll, mapSet_of_lookup_eq sid hs st h]
  | cons h rest ih =>
    intro hs st hlk
    have hsub : subscribeToOutput sid h st = (mapSet sid (setAdd h hs) st, []) := by
      simp [subscribeToOutput, hlk]
    have hnext := ih (setAdd h hs) (mapSet sid (setAdd h hs) st)
      (mapLookup_mapSet_self sid _ st)
    simp only [attachAll, hsub, hnext, mapSet_mapSet, List.foldl_cons]
    simp

/-- Attaching a duplicate-free nonempty handler list for a fresh session:
exactly one upstream subscribe, emitted by the first attach, and the
entry holds all handlers in order. -/
theorem attachAll_fresh (sid : Str) (hs : List Handler) (st : SubMap)
    (h0 : mapLookup sid st = none) (hnd : hs.Nodup) (hne : hs ≠ []) :
    attachAll sid hs st =
      (mapSet sid hs st, [SrvEffect.sub (getTn3270OutputChannel sid)]) := by
  cases hs with
  | nil => exact absurd rfl hne
  | cons h rest =>
    have hsub : subscribeToOutput sid h st =
        (mapSet sid [h] st, [SrvEffect.sub (getTn3270OutputChannel sid)]) := by
      simp [subscribeToOutput, h0, setAdd]
    have hnext := attachAll_of_lookup_some sid rest [h]
      (mapSet sid [h] st) (mapLookup_mapSet_self sid _ st)
    have hfold : rest.foldl (fun a x => setAdd x a) [h] = h :: rest := by
      have := foldl_setAdd_of_nodup rest [h] (List.nodup_cons.mp hnd).2
        (by
          intro x hx
          simp only [List.mem_singleton]
          intro hxh
          exact (List.nodup_cons.mp hnd).1 (hxh ▸ hx))
      simpa using this
    simp only [attachAll, hsub, hnext, hfold, mapSet_mapSet]
    simp

/-- Detaching a permutation of the session's current handler set, one
handler per call: exactly one upstream unsubscribe, emitted by the last
detach, and the map entry is gone. -/
theorem detachAll_perm (sid : Str) (ds : List Handler) :
    ∀ l st, mapLookup sid st = some l → l.Nodup → ds.Perm l → ds ≠ [] →
      detachAll sid ds st =
        (mapDelete sid st, [SrvEffect.unsub (getTn3270OutputChannel sid)]) := by
  induction ds with
  | nil => intro l st _ _ _ hne; exact absurd rfl hne
  | cons d rest ih =>
    intro l st hlk hnd hperm _
    have hd : d ∈ l := hperm.subset (by simp)
    have hexpand : detachAll sid (d :: rest) st =
        ((detachAll sid rest (unsubscribeFromOutput sid (some d) st).1).1,
         (unsubscribeFromOutput sid (some d) st).2 ++
           (detachAll sid rest (unsubscribeFromOutput sid (some d) st).1).2) := rfl
    cases rest with
    | nil =>
      have hl2 : l = [d] := by
        have h1 := List.singleton_perm.mp hperm
        exact h1.symm
      have hstep : unsubscribeFromOutput sid (some d) st =
          (mapDelete sid st, [SrvEffect.unsub (getTn3270OutputChannel sid)]) := by
        simp [unsubscribeFromOutput, hlk, hl2, setDelete]
      rw [hexpand, hstep]
      simp [detachAll]
    | cons d2 rest2 =>
      have herase : (d2 :: rest2).Perm (l.erase d) :=
        (List.cons_perm_iff_perm_erase.mp hperm).2
      have hlen : l.erase d ≠ [] := by
        intro hnil
        have hll : l.length = rest2.length + 2 := by
          have := hperm.length_eq
          simpa using this.symm
        have h1 : (l.erase d).length = rest2.length + 1 := by
          rw [List.length_erase_of_mem hd, hll]
          omega
        simp [hnil] at h1
      have hstep : unsubscribeFromOutput sid (some d) st =
          (mapSet sid (l.erase d) st, []) := by
        simp only [unsubscribeFromOutput, hlk]
        have hcond : ¬ ((setDelete d l).length = 0 ∨
            (some d : Option Handler) = none) := by
          rintro (hl0 | hsn)
          · exact hlen (List.length_eq_zero.mp (by simpa [setDelete] using hl0))
          · exact Option.some_ne_none d hsn
        simp [setDelete] at hcond ⊢
        simp [hcond]
      have hnext := ih (l.erase d) (mapSet sid (l.erase d) st)
        (mapLookup_mapSet_self sid _ st) (hnd.erase d) herase (by simp)
      rw [hexpand, hstep]
      simp [hnext, mapDelete_mapSet]

/-- C2: from no attached handlers for a session, attaching N distinct
handlers issues exactly one upstream broker subscription for the
session's output channel, and then detaching all N (in any order)
issues exactly one upstream unsubscribe and leaves no entry for the
session. -/
theorem subscription_refcount (sid : Str) (hs : List Handler) (st : SubMap)
    (h0 : mapLookup sid st = none) (hne : hs ≠ []) (hnd : hs.Nodup) :
    (attachAll sid hs st).2 = [SrvEffect.sub (getTn3270OutputChannel sid)] ∧
    ∀ ds, ds.Perm hs →
      (detachAll sid ds (attachAll sid hs st).1).2 =
        [SrvEffect.unsub (getTn3270OutputChannel sid)] ∧
      mapLookup sid (detachAll sid ds (attachAll sid hs st).1).1 = none := by
  have hatt := attachAll_fresh sid hs st h0 hnd hne
  refine ⟨by rw [hatt], ?_⟩
  intro ds hperm
  have hdne : ds ≠ [] := by
    intro hnil
    rw [hnil] at hperm
    exact hne (List.nil_perm.mp hperm)
  have hdet := detachAll_perm sid ds hs (mapSet sid hs st)
    (mapLookup_mapSet_self sid hs st) hnd hperm hdne
  rw [hatt]
  simp only [hdet, mapDelete_mapSet]
  rw [mapDelete_of_lookup_none sid st h0]
  simp [h0]

/-- Witness for C2: two handlers attached for a fresh session and
detached in reversed order. -/
theorem subscription_refcount_witness :
    (attachAll ("s".data) [0, 1] []).2 =
      [SrvEffect.sub (getTn3270OutputChannel ("s".data))] ∧
    (detachAll ("s".data) [1, 0] (attachAll ("s".data) [0, 1] []).1).2 =
      [SrvEffect.unsub (getTn3270OutputChannel ("s".data))] ∧
    mapLookup ("s".data) (detachAll ("s".data) [1, 0]
      (attachAll ("s".data) [0, 1] []).1).1 = none := by
  have h := subscription_refcount ("s".data) [0, 1] [] rfl (by simp) (by simp)
  exact ⟨h.1, (h.2 [1, 0] (by decide)).1, (h.2 [1, 0] (by decide)).2⟩

/-- C10: a handler-less unsubscribeFromOutput call drops the session's
whole handler entry and issues the upstream unsubscribe even while two
or more handlers are still attached. -/
theorem handlerless_unsubscribe (sid : Str) (st : SubMap) (l : List Handler)
    (h : mapLookup sid st = some l) (_h2 : 2 ≤ l.length) :
    unsubscribeFromOutput sid none st =
      (mapDelete sid st, [SrvEffect.unsub (getTn3270OutputChannel sid)]) := by
  simp [unsubscribeFromOutput, h]

/-- Witness for C10: a session with two attached handlers. -/
theorem handlerless_unsubscribe_witness :
    unsubscribeFromOutput ("s".data) none [(("s".data), [0, 1])] =
      (mapDelete ("s".data) [(("s".data), [0, 1])],
       [SrvEffect.unsub (getTn3270OutputChannel ("s".data))]) :=
  handlerless_unsubscribe ("s".data) [(("s".data), [0, 1])] [0, 1] rfl (by simp)

/-- C6: on a socket close with no destroy sent, the routing layer
detaches its local output handler through the subscription manager and
publishes nothing on any channel; and the client's default disconnect
path (destroySession false) sends no envelope at all and leaves the
initializedSessions set unchanged. -/
theorem disconnect_without_destroy (sid : Str) (handler : Handler) (st : SubMap) :
    (handleSocketClose sid handler st).1 =
      (unsubscribeFromOutput sid (some handler) st).1 ∧
    (∀ e ∈ (handleSocketClose sid handler st).2, ∃ ch, e = SrvEffect.unsub ch) ∧
    ∀ (wsOpen : Bool) (now : Int) (inited : List Str) (g : Nat),
      disconnectClient sid false wsOpen now inited g = (inited, g, []) := by
  have heffects : (unsubscribeFromOutput sid (some handler) st).2 = [] ∨
      (unsubscribeFromOutput sid (some handler) st).2 =
        [SrvEffect.unsub (getTn3270OutputChannel sid)] := by
    simp only [unsubscribeFromOutput]
    split
    · simp
    · split
      · simp
      · simp
  refine ⟨rfl, ?_, ?_⟩
  · intro e he
    have hsame : (handleSocketClose sid handler st).2 =
        (unsubscribeFromOutput sid (some handler) st).2 := rfl
    rcases heffects with h | h <;> rw [hsame, h] at he
    · simp at he
    · simp at he
      exact ⟨_, he⟩
  · intro wsOpen now inited g
    rfl

/-- Witness for C6 on a concrete one-entry map. -/
theorem disconnect_without_destroy_witness :
    (∀ e ∈ (handleSocketClose ("s".data) 0 [(("s".data), [0])]).2,
      ∃ ch, e = SrvEffect.unsub ch) ∧
    disconnectClient ("s".data) false true 0 [] 0 = ([], 0, []) := by
  have h := disconnect_without_destroy ("s".data) 0 [(("s".data), [0])]
  exact ⟨h.2.1, h.2.2 true 0 [] 0⟩

/-- C7: an inbound frame that fails to decode produces exactly one error
envelope carrying the invalid-message error code back on the socket;
the connection is not closed and the following frames on the same
connection are still processed. -/
theorem malformed_frame_error_reply (sid : Str) (now : Int) (f : WireFrame)
    (g : Nat) (rest : List WireFrame) (e : Str)
    (hbad : deserializeMessage f = Except.error e) :
    handleSocketMessage sid now f g =
      (g + 1, [SrvEffect.sockSend (envelopeToJson
        (createErrorMessage now sid WS_MESSAGE_INVALID invalidFormatText none g).1)]) ∧
    (∀ eff ∈ (handleSocketMessage sid now f g).2, eff.isClose = false) ∧
    processFrames sid now (f :: rest) g =
      ((processFrames sid now rest (g + 1)).1,
       (handleSocketMessage sid now f g).2 ++ (processFrames sid now rest (g + 1)).2) := by
  have h1 : handleSocketMessage sid now f g =
      (g + 1, [SrvEffect.sockSend (envelopeToJson
        (createErrorMessage now sid WS_MESSAGE_INVALID invalidFormatText none g).1)]) := by
    simp [handleSocketMessage, hbad, createErrorMessage, getNextSeq]
  refine ⟨h1, ?_, ?_⟩
  · intro eff heff
    rw [h1] at heff
    simp at heff
    rw [heff]
    rfl
  · simp only [processFrames, h1]
    simp [SrvEffect.isClose]

/-- Witness for C7: an unparseable frame on a fresh counter. -/
theorem malformed_frame_error_reply_witness :
    handleSocketMessage ("s".data) 0 none 0 =
      (1, [SrvEffect.sockSend (envelopeToJson
        (createErrorMessage 0 ("s".data) WS_MESSAGE_INVALID invalidFormatText none 0).1)]) :=
  (malformed_frame_error_reply ("s".data) 0 none 0 [] jsonParseErrorText rfl).1

/-- An execution record with one successful, zero failed and one skipped
item out of two. -/
def skippedExampleRecord : ExecutionRecord :=
  ⟨"login".data, .running, 2, some 1, some 0, some 1, "e1".data⟩

/-- C4, failing input: restoreFromExecution seeds percentage 50 for a
persisted execution whose counts are one success, zero failed and one
skipped out of two items, while the claimed formula, with processed
being success plus failed plus skipped, gives 100. -/
theorem restore_percentage_ignores_skipped :
    (restoreProgress skippedExampleRecord).map ASTProgress.percentage = some 50 ∧
    jsRound ((((1 + 0 + 1 : Nat) : ℚ)) / ((2 : Nat) : ℚ) * 100) = 100 ∧
    (50 : ℤ) ≠ 100 := by
  have key : ∀ (q : ℚ) (n : ℤ), (n : ℚ) ≤ q + 1 / 2 → q + 1 / 2 < (n : ℚ) + 1 →
      jsRound q = n := by
    intro q n h1 h2
    rw [jsRound, Int.floor_eq_iff]
    exact ⟨h1, by exact_mod_cast h2⟩
  refine ⟨?_, ?_, by decide⟩
  · simp only [restoreProgress, skippedExampleRecord, Option.getD]
    norm_num
    exact key _ 50 (by push_cast; norm_num) (by push_cast; norm_num)
  · exact key _ 100 (by push_cast; norm_num) (by push_cast; norm_num)

/-- A parsed frame of type resize carrying all five common fields but no
meta property at all, although the ResizeMessage type of messages.ts
requires meta with numeric cols and rows. -/
def resizeNoMetaExample : JValue :=
  .obj [(typeKey, .str resizeTag), (sessionIdKey, .str ("s".data)),
        (timestampKey, .num 0), (encodingKey, .str ("utf-8".data)),
        (seqKey, .num 1)]

/-- The tag-specific meta shape required of a resize envelope by the
declared ResizeMessage and ResizeMeta types of messages.ts: a meta
object with numeric cols and rows. -/
def hasValidResizeMeta (j : JValue) : Bool :=
  match j with
  | .obj fields =>
      match jLookup metaKey fields with
      | some (.obj mf) =>
          (match jLookup colsKey mf with | some (.num _) => true | _ => false) &&
          (match jLookup rowsKey mf with | some (.num _) => true | _ => false)
      | _ => false
  | _ => false

/-- C3 counterexample: deserializeMessage accepts a resize-tagged input
with no meta whatsoever, so no tag-specific meta validation is
dispatched on the type tag. -/
theorem deserialize_accepts_missing_meta :
    deserializeMessage (some resizeNoMetaExample) = Except.ok resizeNoMetaExample ∧
    jTypeIs resizeTag resizeNoMetaExample = true ∧
    hasValidResizeMeta resizeNoMetaExample = false :=
  ⟨rfl, rfl, rfl⟩

/-- Spec-side description of the common-field validation: the parsed
value is an object whose type, sessionId and encoding properties are
strings and whose timestamp and seq properties are numbers. -/
def commonFieldsSpec (j : JValue) : Prop :=
  ∃ fields t s ts en q, j = .obj fields ∧
    jLookup typeKey fields = some (.str t) ∧
    jLookup sessionIdKey fields = some (.str s) ∧
    jLookup timestampKey fields = some (.num ts) ∧
    jLookup encodingKey fields = some (.str en) ∧
    jLookup seqKey fields = some (.num q)

/-- C3 amended: deserializeMessage returns the parsed value exactly when
the five common fields are present with the right types; unparseable
text is rejected; no tag-specific meta validation happens (see the
counterexample). -/
theorem checkStr_exists (o : Option JValue)
    (h : (match o with | some (.str _) => true | _ => false) = true) :
    ∃ s, o = some (JValue.str s) := by
  rcases o with _ | v
  · simp at h
  · cases v <;> simp at h
    exact ⟨_, rfl⟩

theorem checkNum_exists (o : Option JValue)
    (h : (match o with | some (.num _) => true | _ => false) = true) :
    ∃ n, o = some (JValue.num n) := by
  rcases o with _ | v
  · simp at h
  · cases v <;> simp at h
    exact ⟨_, rfl⟩

theorem deserialize_validates_common_fields :
    (∀ j : JValue, deserializeMessage (some j) = Except.ok j ↔ commonFieldsSpec j) ∧
    deserializeMessage none = Except.error jsonParseErrorText := by
  refine ⟨?_, rfl⟩
  intro j
  constructor
  · intro h
    simp only [deserializeMessage] at h
    by_cases hv : isValidMessageEnvelope j
    · cases j with
      | obj fields =>
        simp only [isValidMessageEnvelope, Bool.and_eq_true] at hv
        obtain ⟨⟨⟨⟨h1, h2⟩, h3⟩, h4⟩, h5⟩ := hv
        obtain ⟨t, hl1⟩ := checkStr_exists _ h1
        obtain ⟨s, hl2⟩ := checkStr_exists _ h2
        obtain ⟨ts, hl3⟩ := checkNum_exists _ h3
        obtain ⟨en, hl4⟩ := checkStr_exists _ h4
        obtain ⟨q, hl5⟩ := checkNum_exists _ h5
        exact ⟨fields, t, s, ts, en, q, rfl, hl1, hl2, hl3, hl4, hl5⟩
      | null => simp [isValidMessageEnvelope] at hv
      | boolean b => simp [isValidMessageEnvelope] at hv
      | num n => simp [isValidMessageEnvelope] at hv
      | str s => simp [isValidMessageEnvelope] at hv
      | arr xs => simp [isValidMessageEnvelope] at hv
    · rw [if_neg hv] at h
      exact absurd h (by simp)
  · rintro ⟨fields, t, s, ts, en, q, rfl, hl1, hl2, hl3, hl4, hl5⟩
    simp [deserializeMessage, isValidMessageEnvelope, hl1, hl2, hl3, hl4, hl5]

/-- A parsed frame with a valid common header and data tag. -/
def dataHeaderExample : JValue :=
  .obj [(typeKey, .str dataTag), (sessionIdKey, .str ("s".data)),
        (timestampKey, .num 7), (encodingKey, .str ("utf-8".data)),
        (seqKey, .num 2)]

/-- Witness for the amended C3 on a concrete accepted header. -/
theorem deserialize_validates_common_fields_witness :
    deserializeMessage (some dataHeaderExample) = Except.ok dataHeaderExample :=
  (deserialize_validates_common_fields.1 dataHeaderExample).mpr
    ⟨_, _, _, _, _, _, rfl, rfl, rfl, rfl, rfl, rfl⟩

/-! Session-create idempotence (C5). -/

theorem bootRun_no_create_of_inited (now : Int) (sid : Str) :
    ∀ (evs : List ClientEvent) (inited : List Str) (g : Nat),
      sid ∈ inited → (∀ e ∈ evs, e ≠ ClientEvent.disconnectDestroy sid) →
      ((bootRun now evs (inited, g)).2.countP (isSessionCreateFor sid)) = 0 := by
  intro evs
  induction evs with
  | nil => intro inited g _ _; simp [bootRun]
  | cons e rest ih =>
    intro inited g hmem hnd
    have hndrest : ∀ x ∈ rest, x ≠ ClientEvent.disconnectDestroy sid :=
      fun x hx => hnd x (List.mem_cons_of_mem e hx)
    have hexpand : bootRun now (e :: rest) (inited, g) =
        ((bootRun now rest (bootStep now e (inited, g)).1).1,
         (bootStep now e (inited, g)).2 ++
           (bootRun now rest (bootStep now e (inited, g)).1).2) := rfl
    cases e with
    | sockOpen sid2 =>
      by_cases hin : sid2 ∈ inited
      · rw [hexpand]
        simp only [bootStep, if_pos hin, List.countP_append]
        simpa using ih inited g hmem hndrest
      · have hne : sid2 ≠ sid := fun hq => hin (hq ▸ hmem)
        rw [hexpand]
        simp only [bootStep, if_neg hin, List.countP_append]
        have hzero : List.countP (isSessionCreateFor sid)
            [(createSessionCreateMessage now sid2 (some defaultCreateMeta) g).1] = 0 := by
          simp [createSessionCreateMessage, getNextSeq, isSessionCreateFor, hne]
        rw [hzero]
        simpa using ih (sid2 :: inited) _ (List.mem_cons_of_mem _ hmem) hndrest
    | sockClosed sid2 =>
      rw [hexpand]
      simp only [bootStep, List.countP_append]
      simpa using ih inited g hmem hndrest
    | disconnectDestroy sid2 =>
      have hne : sid2 ≠ sid := by
        intro hq
        exact (hnd _ (List.mem_cons_self _ _)) (by rw [hq])
      rw [hexpand]
      simp only [bootStep, List.countP_append]
      have hzero : List.countP (isSessionCreateFor sid)
          [(createSessionDestroyMessage now sid2 g).1] = 0 := by
        simp [createSessionDestroyMessage, getNextSeq, isSessionCreateFor]
      rw [hzero]
      have hmem2 : sid ∈ inited.erase sid2 :=
        (List.mem_erase_of_ne (fun hq => hne hq.symm)).mpr hmem
      simpa using ih (inited.erase sid2) _ hmem2 hndrest

theorem bootRun_create_le_one (now : Int) (sid : Str) :
    ∀ (evs : List ClientEvent) (inited : List Str) (g : Nat),
      (∀ e ∈ evs, e ≠ ClientEvent.disconnectDestroy sid) →
      ((bootRun now evs (inited, g)).2.countP (isSessionCreateFor sid)) ≤ 1 := by
  intro evs
  induction evs with
  | nil => intro inited g _; simp [bootRun]
  | cons e rest ih =>
    intro inited g hnd
    have hndrest : ∀ x ∈ rest, x ≠ ClientEvent.disconnectDestroy sid :=
      fun x hx => hnd x (List.mem_cons_of_mem e hx)
    have hexpand : bootRun now (e :: rest) (inited, g) =
        ((bootRun now rest (bootStep now e (inited, g)).1).1,
         (bootStep now e (inited, g)).2 ++
           (bootRun now rest (bootStep now e (inited, g)).1).2) := rfl
    cases e with
    | sockOpen sid2 =>
      by_cases hin : sid2 ∈ inited
      · rw [hexpand]
        simp only [bootStep, if_pos hin, List.countP_append]
        simpa using ih inited g hndrest
      · rw [hexpand]
        simp only [bootStep, if_neg hin, List.countP_append]
        by_cases hq : sid2 = sid
        · subst hq
          have hone : List.countP (isSessionCreateFor sid2)
              [(createSessionCreateMessage now sid2 (some defaultCreateMeta) g).1] = 1 := by
            simp [createSessionCreateMessage, getNextSeq, isSessionCreateFor]
          rw [hone]
          have hzero := bootRun_no_create_of_inited now sid2 rest (sid2 :: inited)
            (createSessionCreateMessage now sid2 (some defaultCreateMeta) g).2
            (by simp) hndrest
          omega
        · have hzero : List.countP (isSessionCreateFor sid)
              [(createSessionCreateMessage now sid2 (some defaultCreateMeta) g).1] = 0 := by
            simp [createSessionCreateMessage, getNextSeq, isSessionCreateFor, hq]
          rw [hzero]
          simpa using ih (sid2 :: inited) _ hndrest
    | sockClosed sid2 =>
      rw [hexpand]
      simp only [bootStep, List.countP_append]
      simpa using ih inited g hndrest
    | disconnectDestroy sid2 =>
      rw [hexpand]
      simp only [bootStep, List.countP_append]
      have hzero : List.countP (isSessionCreateFor sid)
          [(createSessionDestroyMessage now sid2 g).1] = 0 := by
        simp [createSessionDestroyMessage, getNextSeq, isSessionCreateFor]
      rw [hzero]
      simpa using ih (inited.erase sid2) _ hndrest

/-- C5: over any event run without an explicit destroy for a session,
the client sends session.create for that session at most once, and if
the session was already initialized it sends none at all — a reconnect
never re-issues session.create. -/
theorem session_create_idempotent (now : Int) (evs : List ClientEvent)
    (sid : Str) (inited : List Str) (g : Nat)
    (hnd : ∀ e ∈ evs, e ≠ ClientEvent.disconnectDestroy sid) :
    ((bootRun now evs (inited, g)).2.countP (isSessionCreateFor sid)) ≤ 1 ∧
    (sid ∈ inited →
      ((bootRun now evs (inited, g)).2.countP (isSessionCreateFor sid)) = 0) :=
  ⟨bootRun_create_le_one now sid evs inited g hnd,
   fun hmem => bootRun_no_create_of_inited now sid evs inited g hmem hnd⟩

/-- Witness for C5: open, drop, reopen of one session sends one create. -/
theorem session_create_idempotent_witness :
    ((bootRun 0 [ClientEvent.sockOpen ("s".data), ClientEvent.sockClosed ("s".data),
        ClientEvent.sockOpen ("s".data)] ([], 0)).2.countP
      (isSessionCreateFor ("s".data))) ≤ 1 :=
  (session_create_idempotent 0 [ClientEvent.sockOpen ("s".data),
    ClientEvent.sockClosed ("s".data), ClientEvent.sockOpen ("s".data)]
    ("s".data) [] 0 (by decide)).1

/-! Per-connection seq (C9). -/

/-- The trace refuting cross-type seq monotonicity: the onopen
session.create and a heartbeat ping take seqs from the module-level
counter, a following data send takes the per-connection counter. -/
def mixedSeqTrace : List SeqEvent :=
  [SeqEvent.openCreate, SeqEvent.heartbeatPing, SeqEvent.sendData ("x".data)]

/-- C9 counterexample: on a fresh connection the sent seq values are 1,
2, 1 across session.create, ping and data, which is not strictly
increasing. -/
theorem seq_not_monotonic_counterexample :
    ¬ List.Chain' (fun a b => a < b)
      (((seqRun ("s".data) 0 mixedSeqTrace ⟨false, 0, 0⟩).2).map Prod.snd) := by
  have hsent : ((seqRun ("s".data) 0 mixedSeqTrace ⟨false, 0, 0⟩).2).map Prod.snd =
      [1, 2, 1] := by decide
  rw [hsent]
  intro hch
  rw [List.chain'_cons, List.chain'_cons] at hch
  omega

/-- Events whose send path overwrites seq with the per-connection
counter. -/
def SeqEvent.isPerConnectionSend : SeqEvent → Bool
  | .sendData _ => true
  | .sendResize _ _ => true
  | .sendASTRun => true
  | .sendASTControl => true
  | _ => false

/-- The seqs of the sent envelopes whose kind uses the per-connection
counter. -/
def perConnSeqs (sent : List (SentKind × Int)) : List Int :=
  (sent.filter (fun p => p.1.isPerConnection)).map Prod.snd

theorem perConnSeqs_append (xs ys : List (SentKind × Int)) :
    perConnSeqs (xs ++ ys) = perConnSeqs xs ++ perConnSeqs ys := by
  simp [perConnSeqs, List.filter_append]

theorem seqRun_perConnSeqs (sid : Str) (now : Int) :
    ∀ (evs : List SeqEvent) (s : SeqState),
      perConnSeqs ((seqRun sid now evs s).2) =
        (List.range' (s.connSeq + 1) (evs.countP SeqEvent.isPerConnectionSend)).map
          (fun (n : Nat) => (n : Int)) := by
  intro evs
  induction evs with
  | nil => intro s; simp [seqRun, perConnSeqs]
  | cons e rest ih =>
    intro s
    have hexpand : seqRun sid now (e :: rest) s =
        ((seqRun sid now rest (seqStep sid now e s).1).1,
         (seqStep sid now e s).2 ++ (seqRun sid now rest (seqStep sid now e s).1).2) := rfl
    rw [hexpand]
    simp only [perConnSeqs_append]
    cases e with
    | openCreate =>
      cases hin : s.inited
      · have hstep : seqStep sid now SeqEvent.openCreate s =
            (⟨true, (getNextSeq s.globalSeq).2, s.connSeq⟩,
             [(SentKind.create, seqOf (createSessionCreateMessage now sid
                (some defaultCreateMeta) s.globalSeq).1)]) := by
          simp [seqStep, hin, createSessionCreateMessage, getNextSeq]
        rw [hstep]
        simp only [ih]
        simp [perConnSeqs, SentKind.isPerConnection, List.countP_cons,
          SeqEvent.isPerConnectionSend]
      · have hstep : seqStep sid now SeqEvent.openCreate s = (s, []) := by
          simp [seqStep, hin]
        rw [hstep]
        simp only [ih]
        simp [perConnSeqs, List.countP_cons, SeqEvent.isPerConnectionSend]
    | heartbeatPing =>
      have hstep : seqStep sid now SeqEvent.heartbeatPing s =
          (⟨s.inited, (createPingMessage now sid s.globalSeq).2, s.connSeq⟩,
           [(SentKind.ping, seqOf (createPingMessage now sid s.globalSeq).1)]) := rfl
      rw [hstep]
      simp only [ih]
      simp [perConnSeqs, SentKind.isPerConnection, List.countP_cons,
        SeqEvent.isPerConnectionSend]
    | sendData payload =>
      have hstep : seqStep sid now (SeqEvent.sendData payload) s =
          (⟨s.inited, (createDataMessage now sid payload none s.globalSeq).2,
            s.connSeq + 1⟩,
           [(SentKind.data, ((s.connSeq + 1 : Nat) : Int))]) := rfl
      rw [hstep]
      simp only [ih]
      simp only [List.countP_cons, SeqEvent.isPerConnectionSend, if_pos]
      have hrange : List.range' (s.connSeq + 1)
          (rest.countP SeqEvent.isPerConnectionSend + 1) =
          (s.connSeq + 1) :: List.range' (s.connSeq + 2)
            (rest.countP SeqEvent.isPerConnectionSend) := rfl
      rw [hrange]
      simp [perConnSeqs, SentKind.isPerConnection]
    | sendResize cols rows =>
      have hstep : seqStep sid now (SeqEvent.sendResize cols rows) s =
          (⟨s.inited, (createResizeMessage now sid cols rows s.globalSeq).2,
            s.connSeq + 1⟩,
           [(SentKind.resize, ((s.connSeq + 1 : Nat) : Int))]) := rfl
      rw [hstep]
      simp only [ih]
      have hrange : List.range' (s.connSeq + 1)
          (rest.countP SeqEvent.isPerConnectionSend + 1) =
          (s.connSeq + 1) :: List.range' (s.connSeq + 2)
            (rest.countP SeqEvent.isPerConnectionSend) := rfl
      simp only [List.countP_cons, SeqEvent.isPerConnectionSend, if_pos, hrange]
      simp [perConnSeqs, SentKind.isPerConnection]
    | sendASTRun =>
      have hstep : seqStep sid now SeqEvent.sendASTRun s =
          (⟨s.inited, astFactoryCounter s.globalSeq, s.connSeq + 1⟩,
           [(SentKind.astRun, ((s.connSeq + 1 : Nat) : Int))]) := rfl
      rw [hstep]
      simp only [ih]
      have hrange : List.range' (s.connSeq + 1)
          (rest.countP SeqEvent.isPerConnectionSend + 1) =
          (s.connSeq + 1) :: List.range' (s.connSeq + 2)
            (rest.countP SeqEvent.isPerConnectionSend) := rfl
      simp only [List.countP_cons, SeqEvent.isPerConnectionSend, if_pos, hrange]
      simp [perConnSeqs, SentKind.isPerConnection]
    | sendASTControl =>
      have hstep : seqStep sid now SeqEvent.sendASTControl s =
          (⟨s.inited, astFactoryCounter s.globalSeq, s.connSeq + 1⟩,
           [(SentKind.astControl, ((s.connSeq + 1 : Nat) : Int))]) := rfl
      rw [hstep]
      simp only [ih]
      have hrange : List.range' (s.connSeq + 1)
          (rest.countP SeqEvent.isPerConnectionSend + 1) =
          (s.connSeq + 1) :: List.range' (s.connSeq + 2)
            (rest.countP SeqEvent.isPerConnectionSend) := rfl
      simp only [List.countP_cons, SeqEvent.isPerConnectionSend, if_pos, hrange]
      simp [perConnSeqs, SentKind.isPerConnection]

theorem chain_lt_range'_cast (n : Nat) :
    ∀ a : Nat, List.Chain' (fun x y => x < y)
      ((List.range' a n).map (fun (k : Nat) => (k : Int))) := by
  induction n with
  | zero => intro a; simp
  | succ m ih =>
    intro a
    have h1 : List.range' a (m + 1) = a :: List.range' (a + 1) m := rfl
    rw [h1, List.map_cons]
    apply List.chain'_cons'.mpr
    refine ⟨?_, ih (a + 1)⟩
    intro y hy
    cases m with
    | zero => simp at hy
    | succ k =>
      have h2 : List.range' (a + 1) (k + 1) = (a + 1) :: List.range' (a + 2) k := rfl
      rw [h2, List.map_cons] at hy
      simp only [List.head?_cons, Option.mem_def, Option.some.injEq] at hy
      rw [← hy]
      exact_mod_cast Nat.lt_succ_self a

/-- C9 amended: on any single connection, the seq values of the
successively sent data, resize, AST run and AST control envelopes (the
sends that use the per-connection counter) are strictly increasing;
ping heartbeats and session.create draw their seq from the module-level
counter instead, so monotonicity across all message types fails (see
the counterexample). -/
theorem per_connection_seq_monotonic (sid : Str) (now : Int)
    (evs : List SeqEvent) (s : SeqState) :
    List.Chain' (fun a b => a < b) (perConnSeqs ((seqRun sid now evs s).2)) := by
  rw [seqRun_perConnSeqs]
  exact chain_lt_range'_cast _ _

/-! Injectivity of the envelope serialization (towards C1). -/

theorem optField_key (k : Str) (o : Option JValue) (p : Str × JValue)
    (hp : p ∈ optField k o) : p.1 = k := by
  cases o with
  | none => simp [optField] at hp
  | some v =>
    simp only [optField, List.mem_singleton] at hp
    rw [hp]

theorem optField_inj (k : Str) (a b : Option JValue)
    (h : optField k a = optField k b) : a = b := by
  cases a with
  | none =>
    cases b with
    | none => rfl
    | some w => simp [optField] at h
  | some v =>
    cases b with
    | none => simp [optField] at h
    | some w =>
      simp only [optField, List.cons.injEq, Prod.mk.injEq] at h
      rw [h.1.2]

theorem optField_append_inj (k : Str) (o o' : Option JValue)
    (r r' : List (Str × JValue))
    (hr : ∀ p ∈ r, p.1 ≠ k) (hr' : ∀ p ∈ r', p.1 ≠ k)
    (h : optField k o ++ r = optField k o' ++ r') : o = o' ∧ r = r' := by
  cases o with
  | none =>
    cases o' with
    | none => exact ⟨rfl, by simpa [optField] using h⟩
    | some w =>
      simp only [optField, List.nil_append, List.singleton_append] at h
      have hmem : ((k, w) : Str × JValue) ∈ r := by rw [h]; simp
      exact absurd rfl (hr _ hmem)
  | some v =>
    cases o' with
    | none =>
      simp only [optField, List.nil_append, List.singleton_append] at h
      have hmem : ((k, v) : Str × JValue) ∈ r' := by rw [← h]; simp
      exact absurd rfl (hr' _ hmem)
    | some w =>
      simp only [optField, List.singleton_append, List.cons.injEq,
        Prod.mk.injEq] at h
      exact ⟨by rw [h.1.2], h.2⟩

/-- A JSON object assembled from optional fields in key order. -/
def optFieldsChain : List (Str × Option JValue) → List (Str × JValue)
  | [] => []
  | (k, o) :: rest => optField k o ++ optFieldsChain rest

theorem optFieldsChain_key_mem :
    ∀ (l : List (Str × Option JValue)) (p : Str × JValue),
      p ∈ optFieldsChain l → p.1 ∈ l.map Prod.fst := by
  intro l
  induction l with
  | nil => intro p hp; simp [optFieldsChain] at hp
  | cons q rest ih =>
    intro p hp
    obtain ⟨k, o⟩ := q
    simp only [optFieldsChain, List.mem_append] at hp
    rcases hp with hp | hp
    · simp [optField_key k o p hp]
    · simp [ih p hp]

theorem optFieldsChain_inj : ∀ (ps qs : List (Str × Option JValue)),
    ps.map Prod.fst = qs.map Prod.fst → (ps.map Prod.fst).Nodup →
    optFieldsChain ps = optFieldsChain qs → ps = qs := by
  intro ps
  induction ps with
  | nil =>
    intro qs hk _ _
    cases qs with
    | nil => rfl
    | cons q r => simp at hk
  | cons p rest ih =>
    intro qs hk hnd hchain
    obtain ⟨k, o⟩ := p
    cases qs with
    | nil => simp at hk
    | cons q rest' =>
      obtain ⟨k', o'⟩ := q
      simp only [List.map_cons, List.cons.injEq] at hk
      obtain ⟨hkk, hkr⟩ := hk
      subst hkk
      simp only [List.map_cons, List.nodup_cons] at hnd
      obtain ⟨hknotin, hndrest⟩ := hnd
      simp only [optFieldsChain] at hchain
      have hr : ∀ pp ∈ optFieldsChain rest, pp.1 ≠ k := by
        intro pp hpp hq
        exact hknotin (hq ▸ optFieldsChain_key_mem rest pp hpp)
      have hr' : ∀ pp ∈ optFieldsChain rest', pp.1 ≠ k := by
        intro pp hpp hq
        have hm := optFieldsChain_key_mem rest' pp hpp
        rw [← hkr] at hm
        exact hknotin (hq ▸ hm)
      obtain ⟨ho, hrest⟩ := optField_append_inj k o o' _ _ hr hr' hchain
      rw [ho, ih rest' hkr hndrest hrest]

theorem str_injective : Function.Injective JValue.str := by
  intro a b h
  injection h

theorem num_injective : Function.Injective JValue.num := by
  intro a b h
  injection h

theorem encToStr_inj (a b : Encoding) (h : a.toStr = b.toStr) : a = b := by
  cases a <;> cases b <;> first | rfl | exact absurd h (by decide)

theorem ttToStr_inj (a b : TerminalType) (h : a.toStr = b.toStr) : a = b := by
  cases a <;> cases b <;> first | rfl | exact absurd h (by decide)

theorem ttJson_injective :
    Function.Injective (fun t : TerminalType => JValue.str t.toStr) := by
  intro a b h
  simp only [JValue.str.injEq] at h
  exact ttToStr_inj a b h

theorem envRecordToJson_injective : Function.Injective envRecordToJson := by
  intro a b h
  simp only [envRecordToJson, JValue.obj.injEq] at h
  have hfinj : Function.Injective (fun p : Str × Str => ((p.1 : Str), JValue.str p.2)) := by
    intro x y hxy
    obtain ⟨x1, x2⟩ := x
    obtain ⟨y1, y2⟩ := y
    simp only [Prod.mk.injEq, JValue.str.injEq] at hxy
    simp [hxy.1, hxy.2]
  exact List.map_injective_iff.mpr hfinj h

theorem resizeMetaToJson_inj (a b : ResizeMeta)
    (h : resizeMetaToJson a = resizeMetaToJson b) : a = b := by
  obtain ⟨c1, r1⟩ := a
  obtain ⟨c2, r2⟩ := b
  simp only [resizeMetaToJson, JValue.obj.injEq, List.cons.injEq,
    Prod.mk.injEq, JValue.num.injEq, true_and, and_true] at h
  rw [h.1, h.2]

theorem errorMetaToJson_inj (a b : ErrorMeta)
    (h : errorMetaToJson a = errorMetaToJson b) : a = b := by
  obtain ⟨c1, d1⟩ := a
  obtain ⟨c2, d2⟩ := b
  simp only [errorMetaToJson, JValue.obj.injEq, List.cons.injEq,
    Prod.mk.injEq, JValue.str.injEq, true_and] at h
  rw [h.1, optField_inj detailsKey d1 d2 h.2]

theorem sessionCreatedMetaToJson_inj (a b : SessionCreatedMeta)
    (h : sessionCreatedMetaToJson a = sessionCreatedMetaToJson b) : a = b := by
  obtain ⟨p1, s1⟩ := a
  obtain ⟨p2, s2⟩ := b
  simp only [sessionCreatedMetaToJson, JValue.obj.injEq, List.cons.injEq,
    Prod.mk.injEq, JValue.str.injEq, true_and] at h
  have hp := Option.map_injective num_injective (optField_inj pidKey _ _ h.2)
  rw [h.1, hp]

theorem sessionDestroyedMetaToJson_inj (a b : SessionDestroyedMeta)
    (h : sessionDestroyedMetaToJson a = sessionDestroyedMetaToJson b) : a = b := by
  obtain ⟨e1, s1⟩ := a
  obtain ⟨e2, s2⟩ := b
  simp only [sessionDestroyedMetaToJson, JValue.obj.injEq] at h
  obtain ⟨hexit, hsig⟩ := optField_append_inj exitCodeKey _ _ _ _
    (by intro p hp; rw [optField_key signalKey _ p hp]; decide)
    (by intro p hp; rw [optField_key signalKey _ p hp]; decide) h
  have h1 := Option.map_injective num_injective hexit
  have h2 := Option.map_injective str_injective (optField_inj signalKey _ _ hsig)
  rw [h1, h2]

theorem sessionCreateMetaToJson_inj (a b : SessionCreateMeta)
    (h : sessionCreateMetaToJson a = sessionCreateMetaToJson b) : a = b := by
  obtain ⟨t1, s1, c1, r1, e1, w1, h1, p1⟩ := a
  obtain ⟨t2, s2, c2, r2, e2, w2, h2, p2⟩ := b
  simp only [sessionCreateMetaToJson, JValue.obj.injEq] at h
  have hform : ∀ (t : Option TerminalType) (s : Option Str) (c r : Option Int)
      (ev : Option (List (Str × Str))) (w : Option Str) (ho : Option Str)
      (p : Option Int),
      optField terminalTypeKey (t.map (fun x => JValue.str x.toStr)) ++
        optField shellKey (s.map JValue.str) ++
        optField colsKey (c.map JValue.num) ++
        optField rowsKey (r.map JValue.num) ++
        optField envKey (ev.map envRecordToJson) ++
        optField cwdKey (w.map JValue.str) ++
        optField hostKey (ho.map JValue.str) ++
        optField portKey (p.map JValue.num) =
      optFieldsChain
        [(terminalTypeKey, t.map (fun x => JValue.str x.toStr)),
         (shellKey, s.map JValue.str), (colsKey, c.map JValue.num),
         (rowsKey, r.map JValue.num), (envKey, ev.map envRecordToJson),
         (cwdKey, w.map JValue.str), (hostKey, ho.map JValue.str),
         (portKey, p.map JValue.num)] := by
    intro t s c r ev w ho p
    simp [optFieldsChain, List.append_assoc]
  rw [hform, hform] at h
  have hc := optFieldsChain_inj _ _ (by rfl)
    (by simp only [List.map_cons, List.map_nil]; decide) h
  simp only [List.cons.injEq, Prod.mk.injEq, true_and, and_true] at hc
  obtain ⟨hq1, hq2, hq3, hq4, hq5, hq6, hq7, hq8⟩ := hc
  rw [Option.map_injective ttJson_injective hq1,
    Option.map_injective str_injective hq2,
    Option.map_injective num_injective hq3,
    Option.map_injective num_injective hq4,
    Option.map_injective envRecordToJson_injective hq5,
    Option.map_injective str_injective hq6,
    Option.map_injective str_injective hq7,
    Option.map_injective num_injective hq8]

theorem tn3270FieldToJson_injective : Function.Injective tn3270FieldToJson := by
  intro a b h
  obtain ⟨a1, a2, a3, a4, a5, a6, a7⟩ := a
  obtain ⟨b1, b2, b3, b4, b5, b6, b7⟩ := b
  simp only [tn3270FieldToJson, JValue.obj.injEq, List.cons.injEq, Prod.mk.injEq,
    JValue.num.injEq, JValue.boolean.injEq, true_and, and_true] at h
  obtain ⟨g1, g2, g3, g4, g5, g6, g7⟩ := h
  rw [g1, g2, g3, g4, g5, g6, g7]

theorem tn3270ScreenMetaToJson_inj (a b : TN3270ScreenMeta)
    (h : tn3270ScreenMetaToJson a = tn3270ScreenMetaToJson b) : a = b := by
  obtain ⟨f1, a2, a3, a4, a5⟩ := a
  obtain ⟨f2, b2, b3, b4, b5⟩ := b
  simp only [tn3270ScreenMetaToJson, JValue.obj.injEq, List.cons.injEq,
    Prod.mk.injEq, JValue.num.injEq, JValue.arr.injEq, true_and, and_true] at h
  obtain ⟨g1, g2, g3, g4, g5⟩ := h
  rw [List.map_injective_iff.mpr tn3270FieldToJson_injective g1, g2, g3, g4, g5]

theorem tn3270CursorMetaToJson_inj (a b : TN3270CursorMeta)
    (h : tn3270CursorMetaToJson a = tn3270CursorMetaToJson b) : a = b := by
  obtain ⟨a1, a2⟩ := a
  obtain ⟨b1, b2⟩ := b
  simp only [tn3270CursorMetaToJson, JValue.obj.injEq, List.cons.injEq,
    Prod.mk.injEq, JValue.num.injEq, true_and, and_true] at h
  rw [h.1, h.2]

/-! Common-field accessors of an envelope. -/

def tagOf : MessageEnvelope → Str
  | .data _ _ _ _ _ _ => dataTag
  | .resize _ _ _ _ _ _ => resizeTag
  | .ping _ _ _ _ _ _ => pingTag
  | .pong _ _ _ _ _ _ => pongTag
  | .error _ _ _ _ _ _ => errorTag
  | .sessionCreate _ _ _ _ _ _ => sessionCreateTag
  | .sessionDestroy _ _ _ _ _ _ => sessionDestroyTag
  | .sessionCreated _ _ _ _ _ _ => sessionCreatedTag
  | .sessionDestroyed _ _ _ _ _ _ => sessionDestroyedTag
  | .tn3270Screen _ _ _ _ _ _ => tn3270ScreenTag
  | .tn3270Cursor _ _ _ _ _ _ => tn3270CursorTag

def sessionIdOf : MessageEnvelope → Str
  | .data sid _ _ _ _ _ => sid
  | .resize sid _ _ _ _ _ => sid
  | .ping sid _ _ _ _ _ => sid
  | .pong sid _ _ _ _ _ => sid
  | .error sid _ _ _ _ _ => sid
  | .sessionCreate sid _ _ _ _ _ => sid
  | .sessionDestroy sid _ _ _ _ _ => sid
  | .sessionCreated sid _ _ _ _ _ => sid
  | .sessionDestroyed sid _ _ _ _ _ => sid
  | .tn3270Screen sid _ _ _ _ _ => sid
  | .tn3270Cursor sid _ _ _ _ _ => sid

def timestampOf : MessageEnvelope → Int
  | .data _ ts _ _ _ _ => ts
  | .resize _ ts _ _ _ _ => ts
  | .ping _ ts _ _ _ _ => ts
  | .pong _ ts _ _ _ _ => ts
  | .error _ ts _ _ _ _ => ts
  | .sessionCreate _ ts _ _ _ _ => ts
  | .sessionDestroy _ ts _ _ _ _ => ts
  | .sessionCreated _ ts _ _ _ _ => ts
  | .sessionDestroyed _ ts _ _ _ _ => ts
  | .tn3270Screen _ ts _ _ _ _ => ts
  | .tn3270Cursor _ ts _ _ _ _ => ts

def encodingOf : MessageEnvelope → Encoding
  | .data _ _ enc _ _ _ => enc
  | .resize _ _ enc _ _ _ => enc
  | .ping _ _ enc _ _ _ => enc
  | .pong _ _ enc _ _ _ => enc
  | .error _ _ enc _ _ _ => enc
  | .sessionCreate _ _ enc _ _ _ => enc
  | .sessionDestroy _ _ enc _ _ _ => enc
  | .sessionCreated _ _ enc _ _ _ => enc
  | .sessionDestroyed _ _ enc _ _ _ => enc
  | .tn3270Screen _ _ enc _ _ _ => enc
  | .tn3270Cursor _ _ enc _ _ _ => enc

def payloadOf : MessageEnvelope → Str
  | .data _ _ _ _ p _ => p
  | .resize _ _ _ _ p _ => p
  | .ping _ _ _ _ p _ => p
  | .pong _ _ _ _ p _ => p
  | .error _ _ _ _ p _ => p
  | .sessionCreate _ _ _ _ p _ => p
  | .sessionDestroy _ _ _ _ p _ => p
  | .sessionCreated _ _ _ _ p _ => p
  | .sessionDestroyed _ _ _ _ p _ => p
  | .tn3270Screen _ _ _ _ p _ => p
  | .tn3270Cursor _ _ _ _ p _ => p

/-- The serialized meta property of an envelope, absent when the meta is
an absent Option. -/
def metaJsonOpt : MessageEnvelope → Option JValue
  | .data _ _ _ _ _ m => m
  | .resize _ _ _ _ _ m => some (resizeMetaToJson m)
  | .ping _ _ _ _ _ m => m
  | .pong _ _ _ _ _ m => m
  | .error _ _ _ _ _ m => some (errorMetaToJson m)
  | .sessionCreate _ _ _ _ _ m => m.map sessionCreateMetaToJson
  | .sessionDestroy _ _ _ _ _ m => m
  | .sessionCreated _ _ _ _ _ m => some (sessionCreatedMetaToJson m)
  | .sessionDestroyed _ _ _ _ _ m => m.map sessionDestroyedMetaToJson
  | .tn3270Screen _ _ _ _ _ m => some (tn3270ScreenMetaToJson m)
  | .tn3270Cursor _ _ _ _ _ m => some (tn3270CursorMetaToJson m)

/-- The serialized envelope as a key-ordered chain of optional fields. -/
def envChainOf (e : MessageEnvelope) : List (Str × Option JValue) :=
  [(typeKey, some (.str (tagOf e))), (sessionIdKey, some (.str (sessionIdOf e))),
   (payloadKey, some (.str (payloadOf e))), (timestampKey, some (.num (timestampOf e))),
   (encodingKey, some (.str (encodingOf e).toStr)), (seqKey, some (.num (seqOf e))),
   (metaKey, metaJsonOpt e)]

theorem env_chain (e : MessageEnvelope) :
    envelopeToJson e = .obj (optFieldsChain (envChainOf e)) := by
  cases e <;>
    simp [envelopeToJson, envChainOf, optFieldsChain, baseFields, optField,
      tagOf, sessionIdOf, payloadOf, timestampOf, encodingOf, seqOf, metaJsonOpt]

theorem envChain_keys (e : MessageEnvelope) :
    (envChainOf e).map Prod.fst =
      [typeKey, sessionIdKey, payloadKey, timestampKey, encodingKey, seqKey,
       metaKey] := rfl

theorem envChain_head (e : MessageEnvelope) :
    (envChainOf e).head? = some (typeKey, some (.str (tagOf e))) := rfl

theorem isValid_envelopeToJson (e : MessageEnvelope) :
    isValidMessageEnvelope (envelopeToJson e) = true := by
  cases e <;> rfl

theorem envelopeToJson_inj (e2 e : MessageEnvelope)
    (h : envelopeToJson e2 = envelopeToJson e) : e2 = e := by
  rw [env_chain, env_chain] at h
  have hobj : optFieldsChain (envChainOf e2) = optFieldsChain (envChainOf e) := by
    injection h
  have hchain := optFieldsChain_inj (envChainOf e2) (envChainOf e)
    (by rw [envChain_keys, envChain_keys]) (by rw [envChain_keys]; decide) hobj
  have htag : tagOf e2 = tagOf e := by
    have hh := congrArg List.head? hchain
    rw [envChain_head, envChain_head] at hh
    simp only [Option.some.injEq, Prod.mk.injEq, JValue.str.injEq, true_and] at hh
    exact hh
  cases e2 <;> cases e <;>
    try (simp only [tagOf] at htag; exact absurd htag (by decide))
  case data.data =>
    simp only [envChainOf, tagOf, sessionIdOf, payloadOf, timestampOf, encodingOf,
      seqOf, metaJsonOpt, List.cons.injEq, Prod.mk.injEq, Option.some.injEq,
      JValue.str.injEq, JValue.num.injEq, true_and, and_true] at hchain
    obtain ⟨g1, g2, g3, g4, g5, g6⟩ := hchain
    rw [g1, g2, g3, encToStr_inj _ _ g4, g5, g6]
  case resize.resize =>
    simp only [envChainOf, tagOf, sessionIdOf, payloadOf, timestampOf, encodingOf,
      seqOf, metaJsonOpt, List.cons.injEq, Prod.mk.injEq, Option.some.injEq,
      JValue.str.injEq, JValue.num.injEq, true_and, and_true] at hchain
    obtain ⟨g1, g2, g3, g4, g5, g6⟩ := hchain
    rw [g1, g2, g3, encToStr_inj _ _ g4, g5, resizeMetaToJson_inj _ _ g6]
  case ping.ping =>
    simp only [envChainOf, tagOf, sessionIdOf, payloadOf, timestampOf, encodingOf,
      seqOf, metaJsonOpt, List.cons.injEq, Prod.mk.injEq, Option.some.injEq,
      JValue.str.injEq, JValue.num.injEq, true_and, and_true] at hchain
    obtain ⟨g1, g2, g3, g4, g5, g6⟩ := hchain
    rw [g1, g2, g3, encToStr_inj _ _ g4, g5, g6]
  case pong.pong =>
    simp only [envChainOf, tagOf, sessionIdOf, payloadOf, timestampOf, encodingOf,
      seqOf, metaJsonOpt, List.cons.injEq, Prod.mk.injEq, Option.some.injEq,
      JValue.str.injEq, JValue.num.injEq, true_and, and_true] at hchain
    obtain ⟨g1, g2, g3, g4, g5, g6⟩ := hchain
    rw [g1, g2, g3, encToStr_inj _ _ g4, g5, g6]
  case error.error =>
    simp only [envChainOf, tagOf, sessionIdOf, payloadOf, timestampOf, encodingOf,
      seqOf, metaJsonOpt, List.cons.injEq, Prod.mk.injEq, Option.some.injEq,
      JValue.str.injEq, JValue.num.injEq, true_and, and_true] at hchain
    obtain ⟨g1, g2, g3, g4, g5, g6⟩ := hchain
    rw [g1, g2, g3, encToStr_inj _ _ g4, g5, errorMetaToJson_inj _ _ g6]
  case sessionCreate.sessionCreate =>
    simp only [envChainOf, tagOf, sessionIdOf, payloadOf, timestampOf, encodingOf,
      seqOf, metaJsonOpt, List.cons.injEq, Prod.mk.injEq, Option.some.injEq,
      JValue.str.injEq, JValue.num.injEq, true_and, and_true] at hchain
    obtain ⟨g1, g2, g3, g4, g5, g6⟩ := hchain
    rw [g1, g2, g3, encToStr_inj _ _ g4, g5,
      Option.map_injective (fun a b hab => sessionCreateMetaToJson_inj a b hab) g6]
  case sessionDestroy.sessionDestroy =>
    simp only [envChainOf, tagOf, sessionIdOf, payloadOf, timestampOf, encodingOf,
      seqOf, metaJsonOpt, List.cons.injEq, Prod.mk.injEq, Option.some.injEq,
      JValue.str.injEq, JValue.num.injEq, true_and, and_true] at hchain
    obtain ⟨g1, g2, g3, g4, g5, g6⟩ := hchain
    rw [g1, g2, g3, encToStr_inj _ _ g4, g5, g6]
  case sessionCreated.sessionCreated =>
    simp only [envChainOf, tagOf, sessionIdOf, payloadOf, timestampOf, encodingOf,
      seqOf, metaJsonOpt, List.cons.injEq, Prod.mk.injEq, Option.some.injEq,
      JValue.str.injEq, JValue.num.injEq, true_and, and_true] at hchain
    obtain ⟨g1, g2, g3, g4, g5, g6⟩ := hchain
    rw [g1, g2, g3, encToStr_inj _ _ g4, g5, sessionCreatedMetaToJson_inj _ _ g6]
  case sessionDestroyed.sessionDestroyed =>
    simp only [envChainOf, tagOf, sessionIdOf, payloadOf, timestampOf, encodingOf,
      seqOf, metaJsonOpt, List.cons.injEq, Prod.mk.injEq, Option.some.injEq,
      JValue.str.injEq, JValue.num.injEq, true_and, and_true] at hchain
    obtain ⟨g1, g2, g3, g4, g5, g6⟩ := hchain
    rw [g1, g2, g3, encToStr_inj _ _ g4, g5,
      Option.map_injective (fun a b hab => sessionDestroyedMetaToJson_inj a b hab) g6]
  case tn3270Screen.tn3270Screen =>
    simp only [envChainOf, tagOf, sessionIdOf, payloadOf, timestampOf, encodingOf,
      seqOf, metaJsonOpt, List.cons.injEq, Prod.mk.injEq, Option.some.injEq,
      JValue.str.injEq, JValue.num.injEq, true_and, and_true] at hchain
    obtain ⟨g1, g2, g3, g4, g5, g6⟩ := hchain
    rw [g1, g2, g3, encToStr_inj _ _ g4, g5, tn3270ScreenMetaToJson_inj _ _ g6]
  case tn3270Cursor.tn3270Cursor =>
    simp only [envChainOf, tagOf, sessionIdOf, payloadOf, timestampOf, encodingOf,
      seqOf, metaJsonOpt, List.cons.injEq, Prod.mk.injEq, Option.some.injEq,
      JValue.str.injEq, JValue.num.injEq, true_and, and_true] at hchain
    obtain ⟨g1, g2, g3, g4, g5, g6⟩ := hchain
    rw [g1, g2, g3, encToStr_inj _ _ g4, g5, tn3270CursorMetaToJson_inj _ _ g6]

/-- C1: decoding the encoding of any constructible envelope yields the
parsed tree of the encoding (the decoded JS object), which passes
validation, and this tree determines the envelope exactly — so
deserializeMessage(serializeMessage(e)) recovers e for every variant,
including those whose optional meta or optional meta sub-fields are
absent. -/
theorem serialize_roundtrip (e : MessageEnvelope) :
    deserializeMessage (serializeMessage e) = Except.ok (envelopeToJson e) ∧
    ∀ e2, envelopeToJson e2 = envelopeToJson e → e2 = e := by
  constructor
  · simp [serializeMessage, deserializeMessage, isValid_envelopeToJson e]
  · intro e2 h
    exact envelopeToJson_inj e2 e h

/-- A sample envelope with absent optional meta. -/
def sampleEnvelope : MessageEnvelope := .ping ("s".data) 0 .utf8 1 [] none

/-- Witness for C1 at a concrete envelope. -/
theorem serialize_roundtrip_witness :
    deserializeMessage (serializeMessage sampleEnvelope) =
      Except.ok (envelopeToJson sampleEnvelope) ∧
    sampleEnvelope = sampleEnvelope :=
  ⟨(serialize_roundtrip sampleEnvelope).1,
   (serialize_roundtrip sampleEnvelope).2 sampleEnvelope rfl⟩

end Iast
